import Mathlib

/-!
Verification development for the uPIMulator interconnect core:
a shallow embedding of the bufferless 2-D mesh network (router.go,
mesh_network.go), the coarse Interconnect (interconnect.go), the
inter-chip switch (inter_chip_switch.go), the broadcast topology
(broadcast.go) and the ring collective, together with theorems about
the behaviour of these definitions.

Go `int`/`int64` values are modelled as `Int` (no arithmetic in the
embedded code can overflow in the scenarios considered; counters and
coordinates are only incremented/compared).  Go maps keyed by a finite
enumeration are modelled as total functions; the *iteration order* of a
Go map is unspecified, so every loop of the source that ranges over a
map is parameterised by an explicit order list, and theorems quantify
over (or exhibit) admissible orders.
-/

set_option maxHeartbeats 1000000

/-- Port directions for the router (router.go). -/
inductive Direction where
  | NORTH
  | SOUTH
  | EAST
  | WEST
  | LOCAL
deriving DecidableEq, Repr

open Direction

/-- The Direction values in their declaration order (router.go lists
NORTH, SOUTH, EAST, WEST, LOCAL). -/
def directionList : List Direction := [NORTH, SOUTH, EAST, WEST, LOCAL]

/-- RoutingAlgorithm defines how packets are routed (router.go). -/
inductive RoutingAlgorithm where
  | XY_ROUTING
  | YX_ROUTING
  | WEST_FIRST
deriving DecidableEq, Repr

open RoutingAlgorithm

/-- Packet represents a data packet being routed (router.go).  The field
`pid` is a ghost field standing for the identity of the Go heap object
(`*Packet` pointer); the mesh assigns it the packet id. -/
structure Packet where
  SrcChannelID : Int
  SrcRankID : Int
  SrcDpuID : Int
  DstChannelID : Int
  DstRankID : Int
  DstDpuID : Int
  Data : List Nat
  HopCount : Int
  CurrentX : Int
  CurrentY : Int
  Timestamp : Int
  pid : Nat
deriving DecidableEq, Repr

/-- RouterPort represents a single input/output port (router.go). -/
structure RouterPort where
  direction : Direction
  Occupied : Bool
  Packet : Option Packet
deriving DecidableEq, Repr

/-- Router implements a bufferless router (router.go).  The Go maps
`InputPorts`/`OutputPorts` (keyed by the five directions, always
populated after Init) are modelled as total functions. -/
structure Router where
  PositionX : Int
  PositionY : Int
  InputPorts : Direction → RouterPort
  OutputPorts : Direction → RouterPort
  packetsRouted : Int
  packetsBlocked : Int
  totalHops : Int
  cycles : Int
  routingAlgorithm : RoutingAlgorithm

/-- Pointwise update of a direction-indexed port map. -/
def updatePort (ps : Direction → RouterPort) (d : Direction) (v : RouterPort) :
    Direction → RouterPort :=
  fun e => if e = d then v else ps e

/-- Router.Init (router.go): all ten ports start unoccupied. -/
def Router.Init (posX posY : Int) (algorithm : RoutingAlgorithm) : Router where
  PositionX := posX
  PositionY := posY
  InputPorts := fun d => { direction := d, Occupied := false, Packet := none }
  OutputPorts := fun d => { direction := d, Occupied := false, Packet := none }
  packetsRouted := 0
  packetsBlocked := 0
  totalHops := 0
  cycles := 0
  routingAlgorithm := algorithm

/-- Router.ComputeNextHop (router.go): maps (position, destination) to an
output direction.  The final LOCAL is the Go function's fall-through
`return LOCAL // Shouldn't reach here`. -/
def Router.ComputeNextHop (r : Router) (packet : Packet) : Direction :=
  let deltaX := packet.DstChannelID - r.PositionX
  let deltaY := packet.DstDpuID - r.PositionY
  if deltaX = 0 ∧ deltaY = 0 then LOCAL
  else
    match r.routingAlgorithm with
    | XY_ROUTING =>
        if deltaX > 0 then EAST
        else if deltaX < 0 then WEST
        else if deltaY > 0 then NORTH
        else if deltaY < 0 then SOUTH
        else LOCAL
    | YX_ROUTING =>
        if deltaY > 0 then NORTH
        else if deltaY < 0 then SOUTH
        else if deltaX > 0 then EAST
        else if deltaX < 0 then WEST
        else LOCAL
    | WEST_FIRST =>
        if deltaX < 0 then WEST
        else if deltaY > 0 then NORTH
        else if deltaY < 0 then SOUTH
        else if deltaX > 0 then EAST
        else LOCAL

/-- Router.TryRoutePacket (router.go): attempts to route a packet from an
input port to the output port chosen by ComputeNextHop.  Returns the
updated router and the success flag.  On success the packet stored in
the output port has its HopCount incremented (in Go the increment is
through the shared pointer). -/
def Router.TryRoutePacket (r : Router) (packet : Packet) : Router × Bool :=
  let nextDir := r.ComputeNextHop packet
  if (r.OutputPorts nextDir).Occupied then
    ({ r with packetsBlocked := r.packetsBlocked + 1 }, false)
  else
    let moved := { packet with HopCount := packet.HopCount + 1 }
    ({ r with
        OutputPorts := updatePort r.OutputPorts nextDir
          { (r.OutputPorts nextDir) with Occupied := true, Packet := some moved }
        packetsRouted := r.packetsRouted + 1
        totalHops := r.totalHops + (packet.HopCount + 1) },
      true)

/-- One step of the route phase of Router.Cycle (router.go): process the
input port in direction `d`. -/
def Router.routeInput (r : Router) (d : Direction) : Router :=
  let inputPort := r.InputPorts d
  if inputPort.Occupied then
    match inputPort.Packet with
    | some packet =>
        let res := r.TryRoutePacket packet
        if res.2 then
          { res.1 with
              InputPorts := updatePort res.1.InputPorts d
                { (res.1.InputPorts d) with Occupied := false, Packet := none } }
        else res.1
    | none => r
  else r

/-- Router.Cycle (router.go).  Phase 1 clears every output port; phase 2
iterates the input ports.  The Go source ranges over the map
`r.InputPorts`, whose iteration order is unspecified, so the phase-2
order is an explicit parameter `order` (an admissible Go execution uses
some permutation of the five directions). -/
def Router.Cycle (order : List Direction) (r : Router) : Router :=
  let cleared :=
    { r with OutputPorts := fun d =>
        { (r.OutputPorts d) with Occupied := false, Packet := none } }
  let routed := order.foldl Router.routeInput cleared
  { routed with cycles := routed.cycles + 1 }

/-- Router.ReceivePacket (router.go): place a packet into the input port
`fromDir`; fails if that port is occupied.  The stored packet has its
CurrentX/CurrentY updated to this router's position (in Go through the
shared pointer). -/
def Router.ReceivePacket (r : Router) (packet : Packet) (fromDir : Direction) :
    Router × Bool :=
  if (r.InputPorts fromDir).Occupied then (r, false)
  else
    let placed := { packet with CurrentX := r.PositionX, CurrentY := r.PositionY }
    ({ r with
        InputPorts := updatePort r.InputPorts fromDir
          { (r.InputPorts fromDir) with Occupied := true, Packet := some placed } },
      true)

/-- Router.InjectPacket (router.go): place a packet directly in the
computed output port, resetting its hop count. -/
def Router.InjectPacket (r : Router) (packet : Packet) : Router × Bool :=
  let packet1 := { packet with CurrentX := r.PositionX, CurrentY := r.PositionY }
  let nextDir := r.ComputeNextHop packet1
  if (r.OutputPorts nextDir).Occupied then (r, false)
  else
    ({ r with
        OutputPorts := updatePort r.OutputPorts nextDir
          { (r.OutputPorts nextDir) with
            Occupied := true
            Packet := some { packet1 with HopCount := 0 } } },
      true)

/-- NewPacket (router.go): HopCount 0, Timestamp 0, current coordinates
zero-valued as in the Go struct literal.  `pid` is the ghost identity. -/
def NewPacket (srcCh srcRank srcDpu dstCh dstRank dstDpu : Int)
    (data : List Nat) (pid : Nat) : Packet where
  SrcChannelID := srcCh
  SrcRankID := srcRank
  SrcDpuID := srcDpu
  DstChannelID := dstCh
  DstRankID := dstRank
  DstDpuID := dstDpu
  Data := data
  HopCount := 0
  CurrentX := 0
  CurrentY := 0
  Timestamp := 0
  pid := pid

/-- MeshNetwork (mesh_network.go).  The Go grid `routers [][]*Router` is
modelled as a total function on Nat coordinates (only indices below
width/height are ever created or touched by the Go code); the map
`activePackets : map[int]*Packet` is modelled by the list of keys (the
per-packet state lives in the ports, and pointer identity is the ghost
`pid`).  `deliveredLog` is a ghost observer recording, in order, the
packets counted as delivered by Cycle. -/
structure MeshNetwork where
  width : Int
  height : Int
  routers : Nat → Nat → Router
  activePackets : List Nat
  nextPacketID : Int
  totalPacketsDelivered : Int
  totalPacketLatency : Int
  totalPacketsInjected : Int
  cycles : Int
  routingAlgorithm : RoutingAlgorithm
  deliveredLog : List Packet

/-- Pointwise update of the router grid. -/
def updateGrid (g : Nat → Nat → Router) (x y : Nat) (r : Router) :
    Nat → Nat → Router :=
  fun a b => if a = x ∧ b = y then r else g a b

/-- MeshNetwork.Init (mesh_network.go). -/
def MeshNetwork.Init (width height : Int) (algorithm : RoutingAlgorithm) :
    MeshNetwork where
  width := width
  height := height
  routers := fun x y => Router.Init (Int.ofNat x) (Int.ofNat y) algorithm
  activePackets := []
  nextPacketID := 0
  totalPacketsDelivered := 0
  totalPacketLatency := 0
  totalPacketsInjected := 0
  cycles := 0
  routingAlgorithm := algorithm
  deliveredLog := []

/-- isValidPosition (mesh_network.go). -/
def MeshNetwork.isValidPosition (mn : MeshNetwork) (x y : Int) : Bool :=
  0 ≤ x ∧ x < mn.width ∧ 0 ≤ y ∧ y < mn.height

/-- MeshNetwork.InjectPacket (mesh_network.go): validates coordinates,
builds the packet with Timestamp = current cycle, and places it in the
source router's LOCAL input port.  Returns the new network and
`some packetID` on success, `none` on any error. -/
def MeshNetwork.InjectPacket (mn : MeshNetwork) (srcX srcY dstX dstY : Int)
    (data : List Nat) : MeshNetwork × Option Int :=
  if ¬ mn.isValidPosition srcX srcY then (mn, none)
  else if ¬ mn.isValidPosition dstX dstY then (mn, none)
  else
    let packet :=
      { NewPacket srcX 0 srcY dstX 0 dstY data mn.nextPacketID.toNat with
        Timestamp := mn.cycles }
    let router := mn.routers srcX.toNat srcY.toNat
    let res := router.ReceivePacket packet LOCAL
    if res.2 then
      ({ mn with
          routers := updateGrid mn.routers srcX.toNat srcY.toNat res.1
          activePackets := mn.nextPacketID.toNat :: mn.activePackets
          nextPacketID := mn.nextPacketID + 1
          totalPacketsInjected := mn.totalPacketsInjected + 1 },
        some mn.nextPacketID)
    else (mn, none)

/-- One cardinal hand-off of MeshNetwork.Cycle phase 2: if router (x,y)
has an occupied output in `outDir` and `cond` (the boundary check)
holds, deposit its packet into input `inDir` of router (nx,ny); on
success clear the source output.  An occupied output holding no packet
is left alone (the Go code would dereference nil there; the state is
unreachable). -/
def MeshNetwork.transferDir (mn : MeshNetwork) (x y : Nat) (outDir : Direction)
    (cond : Bool) (nx ny : Nat) (inDir : Direction) : MeshNetwork :=
  let router := mn.routers x y
  if (router.OutputPorts outDir).Occupied ∧ cond then
    match (router.OutputPorts outDir).Packet with
    | some packet =>
        let neighborRouter := mn.routers nx ny
        let res := neighborRouter.ReceivePacket packet inDir
        if res.2 then
          { mn with
              routers :=
                updateGrid (updateGrid mn.routers nx ny res.1) x y
                  { router with
                      OutputPorts := updatePort router.OutputPorts outDir
                        { (router.OutputPorts outDir) with
                          Occupied := false
                          Packet := none } } }
        else mn
    | none => mn
  else mn

/-- The LOCAL-output part of MeshNetwork.Cycle phase 2: a packet in the
LOCAL output is counted as delivered, removed from the in-flight set
(Go scans the map for the matching pointer; here: erase the pid) and
appended to the ghost `deliveredLog`. -/
def MeshNetwork.deliverLocal (mn : MeshNetwork) (x y : Nat) : MeshNetwork :=
  let router := mn.routers x y
  if (router.OutputPorts LOCAL).Occupied then
    match (router.OutputPorts LOCAL).Packet with
    | some packet =>
        let latency := mn.cycles - packet.Timestamp
        { mn with
            totalPacketsDelivered := mn.totalPacketsDelivered + 1
            totalPacketLatency := mn.totalPacketLatency + latency
            activePackets := mn.activePackets.erase packet.pid
            deliveredLog := mn.deliveredLog ++ [packet]
            routers := updateGrid mn.routers x y
              { router with
                  OutputPorts := updatePort router.OutputPorts LOCAL
                    { (router.OutputPorts LOCAL) with
                      Occupied := false
                      Packet := none } } }
    | none => mn
  else mn

/-- The phase-2 body of MeshNetwork.Cycle for one grid cell, in source
order: NORTH, SOUTH, EAST, WEST outputs, then the LOCAL output. -/
def MeshNetwork.transferStep (mn : MeshNetwork) (xy : Nat × Nat) : MeshNetwork :=
  let x := xy.1
  let y := xy.2
  let m1 := mn.transferDir x y NORTH (decide (y + 1 < mn.height.toNat)) x (y + 1) SOUTH
  let m2 := m1.transferDir x y SOUTH (decide (0 < y)) x (y - 1) NORTH
  let m3 := m2.transferDir x y EAST (decide (x + 1 < mn.width.toNat)) (x + 1) y WEST
  let m4 := m3.transferDir x y WEST (decide (0 < x)) (x - 1) y EAST
  m4.deliverLocal x y

/-- The grid coordinates in the iteration order of the Go nested loops
(x outer, y inner). -/
def gridCoords (w h : Nat) : List (Nat × Nat) :=
  (List.range w).flatMap fun x => (List.range h).map fun y => (x, y)

/-- MeshNetwork.Cycle (mesh_network.go): phase 1 cycles every router
(each router's input-map iteration order is the unspecified Go map
order, supplied by `orders`); phase 2 walks the grid handing packets to
neighbours and draining LOCAL outputs; finally the cycle counter is
incremented. -/
def MeshNetwork.Cycle (orders : Nat → Nat → List Direction) (mn : MeshNetwork) :
    MeshNetwork :=
  let phase1 :=
    { mn with routers := fun x y =>
        if x < mn.width.toNat ∧ y < mn.height.toNat then
          Router.Cycle (orders x y) (mn.routers x y)
        else mn.routers x y }
  let phase2 := (gridCoords mn.width.toNat mn.height.toNat).foldl
    MeshNetwork.transferStep phase1
  { phase2 with cycles := phase2.cycles + 1 }

/-- A trace operation on the mesh: an InjectPacket call or a Cycle call
(carrying the per-router map iteration orders of that cycle). -/
inductive MeshOp where
  | inject (srcX srcY dstX dstY : Int) (data : List Nat)
  | cycle (orders : Nat → Nat → List Direction)

/-- Run a list of operations from a state. -/
def MeshNetwork.run (mn : MeshNetwork) : List MeshOp → MeshNetwork
  | [] => mn
  | MeshOp.inject sx sy dx dy data :: ops =>
      ((mn.InjectPacket sx sy dx dy data).1).run ops
  | MeshOp.cycle orders :: ops => (mn.Cycle orders).run ops

/-- Number of occupied ports of one router. -/
def Router.occupiedPorts (r : Router) : Nat :=
  (directionList.countP fun d => (r.InputPorts d).Occupied) +
    (directionList.countP fun d => (r.OutputPorts d).Occupied)

/-- Sum over the grid of occupied input and output ports. -/
def MeshNetwork.portOccupancy (mn : MeshNetwork) : Nat :=
  ((gridCoords mn.width.toNat mn.height.toNat).map fun xy =>
    (mn.routers xy.1 xy.2).occupiedPorts).sum

set_option maxRecDepth 10000

/-- Manhattan distance from a packet's recorded source coordinates to the
grid cell (x,y). -/
def distSrc (p : Packet) (x y : Nat) : Nat :=
  (p.SrcChannelID - (x : Int)).natAbs + (p.SrcDpuID - (y : Int)).natAbs

/-- Manhattan distance between a packet's source and destination
coordinates: the quantity of spec invariant 1. -/
def manhattanSD (p : Packet) : Nat :=
  (p.DstChannelID - p.SrcChannelID).natAbs + (p.DstDpuID - p.SrcDpuID).natAbs

/-- Invariant of a single router at grid cell (x,y): its position fields
match the cell, every packet parked in an input port has travelled at
least the distance from its source to this cell, every packet in an
output port has travelled at least one more (the routing hop that put
it there), and a packet in the LOCAL output is at its destination. -/
def RouterInv (x y : Nat) (r : Router) : Prop :=
  r.PositionX = (x : Int) ∧ r.PositionY = (y : Int) ∧
  (∀ d p, (r.InputPorts d).Occupied = true → (r.InputPorts d).Packet = some p →
    (distSrc p x y : Int) ≤ p.HopCount) ∧
  (∀ d p, (r.OutputPorts d).Occupied = true → (r.OutputPorts d).Packet = some p →
    (distSrc p x y : Int) + 1 ≤ p.HopCount ∧
      (d = LOCAL → p.DstChannelID = (x : Int) ∧ p.DstDpuID = (y : Int)))

/-- Global mesh invariant: every grid router satisfies its router
invariant and every packet already counted as delivered has a hop count
at least the Manhattan source-destination distance. -/
def MeshInv (mn : MeshNetwork) : Prop :=
  (∀ x y, x < mn.width.toNat → y < mn.height.toNat →
    RouterInv x y (mn.routers x y)) ∧
  (∀ p ∈ mn.deliveredLog, (manhattanSD p : Int) ≤ p.HopCount)

/-- If ComputeNextHop chooses LOCAL then the packet is at its
destination (the Go fall-through `return LOCAL` is unreachable for the
three algorithm variants). -/
theorem computeNextHop_LOCAL (r : Router) (p : Packet)
    (h : r.ComputeNextHop p = LOCAL) :
    p.DstChannelID = r.PositionX ∧ p.DstDpuID = r.PositionY := by
  unfold Router.ComputeNextHop at h
  by_cases h0 : p.DstChannelID - r.PositionX = 0 ∧ p.DstDpuID - r.PositionY = 0
  · constructor <;> omega
  · simp only [h0, if_false] at h
    cases halg : r.routingAlgorithm <;> rw [halg] at h <;>
      split_ifs at h <;> simp_all <;> omega

theorem updatePort_apply (ps : Direction → RouterPort) (d : Direction)
    (v : RouterPort) (e : Direction) :
    updatePort ps d v e = if e = d then v else ps e := rfl

theorem updateGrid_apply (g : Nat → Nat → Router) (x y : Nat) (r : Router)
    (a b : Nat) :
    updateGrid g x y r a b = if a = x ∧ b = y then r else g a b := rfl

theorem tryRoute_InputPorts (r : Router) (p : Packet) :
    (r.TryRoutePacket p).1.InputPorts = r.InputPorts := by
  by_cases hocc : (r.OutputPorts (r.ComputeNextHop p)).Occupied = true
  · simp [Router.TryRoutePacket, hocc]
  · simp [Router.TryRoutePacket, hocc]

theorem tryRoute_Position (r : Router) (p : Packet) :
    (r.TryRoutePacket p).1.PositionX = r.PositionX ∧
      (r.TryRoutePacket p).1.PositionY = r.PositionY := by
  by_cases hocc : (r.OutputPorts (r.ComputeNextHop p)).Occupied = true
  · simp [Router.TryRoutePacket, hocc]
  · simp [Router.TryRoutePacket, hocc]

theorem tryRoute_inv (x y : Nat) (r : Router) (p : Packet)
    (hinv : RouterInv x y r) (hp : (distSrc p x y : Int) ≤ p.HopCount) :
    RouterInv x y (r.TryRoutePacket p).1 := by
  obtain ⟨hpx, hpy, hin, hout⟩ := hinv
  by_cases hocc : (r.OutputPorts (r.ComputeNextHop p)).Occupied = true
  · simp only [Router.TryRoutePacket, hocc, if_true]
    exact ⟨hpx, hpy, hin, hout⟩
  · simp only [Router.TryRoutePacket, hocc, if_false, Bool.false_eq_true]
    refine ⟨hpx, hpy, hin, ?_⟩
    intro d q hoccd hpkt
    simp only [updatePort_apply] at hoccd hpkt
    by_cases hd : d = r.ComputeNextHop p
    · simp only [hd, if_true] at hoccd hpkt
      simp only [Option.some.injEq] at hpkt
      subst hpkt
      constructor
      · have : distSrc { p with HopCount := p.HopCount + 1 } x y = distSrc p x y := rfl
        rw [this]
        simpa using by omega
      · intro hL
        have := computeNextHop_LOCAL r p (by rw [← hd, hL])
        rw [hpx, hpy] at this
        simpa using this
    · simp only [hd, if_false] at hoccd hpkt
      exact hout d q hoccd hpkt

theorem routeInput_inv (x y : Nat) (r : Router) (d : Direction)
    (hinv : RouterInv x y r) : RouterInv x y (r.routeInput d) := by
  unfold Router.routeInput
  by_cases hocc : (r.InputPorts d).Occupied = true
  · simp only [hocc, if_true]
    cases hpkt : (r.InputPorts d).Packet with
    | none => exact hinv
    | some p =>
        have hp : (distSrc p x y : Int) ≤ p.HopCount :=
          hinv.2.2.1 d p hocc hpkt
        have hres : RouterInv x y (r.TryRoutePacket p).1 :=
          tryRoute_inv x y r p hinv hp
        by_cases hs : (r.TryRoutePacket p).2 = true
        · simp only [hs, if_true]
          obtain ⟨h1, h2, h3, h4⟩ := hres
          refine ⟨h1, h2, ?_, h4⟩
          intro e q hoe hpe
          simp only [updatePort_apply] at hoe hpe
          by_cases he : e = d
          · simp only [he, if_true] at hoe
            exact absurd hoe (by simp)
          · simp only [he, if_false] at hoe hpe
            exact h3 e q hoe hpe
        · simp only [hs, if_false, Bool.false_eq_true]
          exact hres
  · simp only [hocc, if_false, Bool.false_eq_true]
    exact hinv

theorem foldl_routeInput_inv (x y : Nat) (order : List Direction) :
    ∀ r : Router, RouterInv x y r →
      RouterInv x y (order.foldl Router.routeInput r) := by
  induction order with
  | nil => intro r h; exact h
  | cons d rest ih =>
      intro r h
      exact ih (r.routeInput d) (routeInput_inv x y r d h)

theorem routerCycle_inv (x y : Nat) (order : List Direction) (r : Router)
    (hinv : RouterInv x y r) : RouterInv x y (Router.Cycle order r) := by
  obtain ⟨h1, h2, h3, _⟩ := hinv
  have hcleared : RouterInv x y
      { r with OutputPorts := fun d =>
          { (r.OutputPorts d) with Occupied := false, Packet := none } } := by
    refine ⟨h1, h2, h3, ?_⟩
    intro d q hoe
    exact absurd hoe (by simp)
  have := foldl_routeInput_inv x y order _ hcleared
  obtain ⟨g1, g2, g3, g4⟩ := this
  exact ⟨g1, g2, g3, g4⟩

theorem receivePacket_inv (x y : Nat) (r : Router) (p : Packet)
    (fromDir : Direction) (hinv : RouterInv x y r)
    (hp : (distSrc p x y : Int) ≤ p.HopCount) :
    RouterInv x y (r.ReceivePacket p fromDir).1 := by
  obtain ⟨hpx, hpy, hin, hout⟩ := hinv
  by_cases hocc : (r.InputPorts fromDir).Occupied = true
  · simp only [Router.ReceivePacket, hocc, if_true]
    exact ⟨hpx, hpy, hin, hout⟩
  · simp only [Router.ReceivePacket, hocc, if_false, Bool.false_eq_true]
    refine ⟨hpx, hpy, ?_, hout⟩
    intro d q hoccd hpkt
    simp only [updatePort_apply] at hoccd hpkt
    by_cases hd : d = fromDir
    · simp only [hd, if_true] at hoccd hpkt
      simp only [Option.some.injEq] at hpkt
      subst hpkt
      exact hp
    · simp only [hd, if_false] at hoccd hpkt
      exact hin d q hoccd hpkt

theorem transferDir_frame (mn : MeshNetwork) (x y : Nat) (outDir : Direction)
    (cond : Bool) (nx ny : Nat) (inDir : Direction) :
    (mn.transferDir x y outDir cond nx ny inDir).width = mn.width ∧
      (mn.transferDir x y outDir cond nx ny inDir).height = mn.height ∧
      (mn.transferDir x y outDir cond nx ny inDir).deliveredLog =
        mn.deliveredLog := by
  simp only [MeshNetwork.transferDir]
  split
  · split
    · split
      · exact ⟨rfl, rfl, rfl⟩
      · exact ⟨rfl, rfl, rfl⟩
    · exact ⟨rfl, rfl, rfl⟩
  · exact ⟨rfl, rfl, rfl⟩

theorem transferDir_inv (mn : MeshNetwork) (x y nx ny : Nat)
    (outDir inDir : Direction) (cond : Bool) (hinv : MeshInv mn)
    (hx : x < mn.width.toNat) (hy : y < mn.height.toNat)
    (hn : cond = true → nx < mn.width.toNat ∧ ny < mn.height.toNat ∧
      ¬(nx = x ∧ ny = y) ∧
      ∀ p : Packet, distSrc p nx ny ≤ distSrc p x y + 1) :
    MeshInv (mn.transferDir x y outDir cond nx ny inDir) := by
  obtain ⟨hrt, hlog⟩ := hinv
  simp only [MeshNetwork.transferDir]
  split
  case isFalse => exact ⟨hrt, hlog⟩
  case isTrue hc =>
    obtain ⟨hoccb, hcond⟩ := hc
    obtain ⟨hnx, hny, hne, hdist⟩ := hn hcond
    split
    case h_2 => exact ⟨hrt, hlog⟩
    case h_1 packet hpkt =>
      split
      case isFalse => exact ⟨hrt, hlog⟩
      case isTrue hrc =>
        refine ⟨?_, hlog⟩
        intro a b ha hb
        simp only [updateGrid_apply]
        by_cases hab1 : a = x ∧ b = y
        · rw [if_pos hab1]
          obtain ⟨hax, hby⟩ := hab1
          subst hax; subst hby
          obtain ⟨g1, g2, g3, g4⟩ := hrt a b ha hb
          refine ⟨g1, g2, g3, ?_⟩
          intro d q hoe hpe
          simp only [updatePort_apply] at hoe hpe
          by_cases hd : d = outDir
          · simp only [hd, if_true] at hoe
            exact absurd hoe (by simp)
          · simp only [hd, if_false] at hoe hpe
            exact g4 d q hoe hpe
        · rw [if_neg hab1]
          by_cases hab2 : a = nx ∧ b = ny
          · rw [if_pos hab2]
            obtain ⟨hax, hby⟩ := hab2
            subst hax; subst hby
            have hsrc := hrt x y hx hy
            have hbound := (hsrc.2.2.2 outDir packet hoccb hpkt).1
            have : (distSrc packet a b : Int) ≤ packet.HopCount := by
              have := hdist packet
              omega
            exact receivePacket_inv a b (mn.routers a b) packet inDir
              (hrt a b ha hb) this
          · rw [if_neg hab2]
            exact hrt a b ha hb

theorem deliverLocal_frame (mn : MeshNetwork) (x y : Nat) :
    (mn.deliverLocal x y).width = mn.width ∧
      (mn.deliverLocal x y).height = mn.height := by
  simp only [MeshNetwork.deliverLocal]
  split
  · split
    · exact ⟨rfl, rfl⟩
    · exact ⟨rfl, rfl⟩
  · exact ⟨rfl, rfl⟩

theorem deliverLocal_inv (mn : MeshNetwork) (x y : Nat) (hinv : MeshInv mn)
    (hx : x < mn.width.toNat) (hy : y < mn.height.toNat) :
    MeshInv (mn.deliverLocal x y) := by
  obtain ⟨hrt, hlog⟩ := hinv
  simp only [MeshNetwork.deliverLocal]
  split
  case isFalse => exact ⟨hrt, hlog⟩
  case isTrue hocc =>
    split
    case h_2 => exact ⟨hrt, hlog⟩
    case h_1 packet hpkt =>
      have hsrc := hrt x y hx hy
      have hL := hsrc.2.2.2 LOCAL packet hocc hpkt
      have hdst := hL.2 rfl
      constructor
      · intro a b ha hb
        simp only [updateGrid_apply]
        by_cases hab : a = x ∧ b = y
        · rw [if_pos hab]
          obtain ⟨hax, hby⟩ := hab
          subst hax; subst hby
          obtain ⟨g1, g2, g3, g4⟩ := hrt a b ha hb
          refine ⟨g1, g2, g3, ?_⟩
          intro d q hoe hpe
          simp only [updatePort_apply] at hoe hpe
          by_cases hd : d = LOCAL
          · simp only [hd, if_true] at hoe
            exact absurd hoe (by simp)
          · simp only [hd, if_false] at hoe hpe
            exact g4 d q hoe hpe
        · rw [if_neg hab]
          exact hrt a b ha hb
      · intro p hp
        simp only [List.mem_append, List.mem_singleton] at hp
        rcases hp with hp | hp
        · exact hlog p hp
        · subst hp
          have heq : manhattanSD p = distSrc p x y := by
            unfold manhattanSD distSrc
            rw [hdst.1, hdst.2]
            omega
          rw [heq]
          omega

theorem transferStep_inv (mn : MeshNetwork) (xy : Nat × Nat) (hinv : MeshInv mn)
    (hx : xy.1 < mn.width.toNat) (hy : xy.2 < mn.height.toNat) :
    MeshInv (mn.transferStep xy) := by
  obtain ⟨x, y⟩ := xy
  simp only at hx hy
  simp only [MeshNetwork.transferStep]
  have f1 := transferDir_frame mn x y NORTH
    (decide (y + 1 < mn.height.toNat)) x (y + 1) SOUTH
  have h1 : MeshInv (mn.transferDir x y NORTH
      (decide (y + 1 < mn.height.toNat)) x (y + 1) SOUTH) := by
    refine transferDir_inv mn x y x (y + 1) NORTH SOUTH _ hinv hx hy ?_
    intro hc
    have hcc := of_decide_eq_true hc
    refine ⟨hx, hcc, by omega, ?_⟩
    intro p
    unfold distSrc
    omega
  set m1 := mn.transferDir x y NORTH
    (decide (y + 1 < mn.height.toNat)) x (y + 1) SOUTH with hm1
  have f2 := transferDir_frame m1 x y SOUTH (decide (0 < y)) x (y - 1) NORTH
  have h2 : MeshInv (m1.transferDir x y SOUTH (decide (0 < y)) x (y - 1) NORTH) := by
    refine transferDir_inv m1 x y x (y - 1) SOUTH NORTH _ h1
      (by rw [f1.1]; exact hx) (by rw [f1.2.1]; exact hy) ?_
    intro hc
    have hcc := of_decide_eq_true hc
    refine ⟨by rw [f1.1]; exact hx, by rw [f1.2.1]; omega, by omega, ?_⟩
    intro p
    unfold distSrc
    omega
  set m2 := m1.transferDir x y SOUTH (decide (0 < y)) x (y - 1) NORTH with hm2
  have f3 := transferDir_frame m2 x y EAST
    (decide (x + 1 < mn.width.toNat)) (x + 1) y WEST
  have h3 : MeshInv (m2.transferDir x y EAST
      (decide (x + 1 < mn.width.toNat)) (x + 1) y WEST) := by
    refine transferDir_inv m2 x y (x + 1) y EAST WEST _ h2
      (by rw [f2.1, f1.1]; exact hx) (by rw [f2.2.1, f1.2.1]; exact hy) ?_
    intro hc
    have hcc := of_decide_eq_true hc
    refine ⟨by rw [f2.1, f1.1]; exact hcc, by rw [f2.2.1, f1.2.1]; exact hy,
      by omega, ?_⟩
    intro p
    unfold distSrc
    omega
  set m3 := m2.transferDir x y EAST
    (decide (x + 1 < mn.width.toNat)) (x + 1) y WEST with hm3
  have f4 := transferDir_frame m3 x y WEST (decide (0 < x)) (x - 1) y EAST
  have h4 : MeshInv (m3.transferDir x y WEST (decide (0 < x)) (x - 1) y EAST) := by
    refine transferDir_inv m3 x y (x - 1) y WEST EAST _ h3
      (by rw [f3.1, f2.1, f1.1]; exact hx)
      (by rw [f3.2.1, f2.2.1, f1.2.1]; exact hy) ?_
    intro hc
    have hcc := of_decide_eq_true hc
    refine ⟨by rw [f3.1, f2.1, f1.1]; omega,
      by rw [f3.2.1, f2.2.1, f1.2.1]; exact hy, by omega, ?_⟩
    intro p
    unfold distSrc
    omega
  set m4 := m3.transferDir x y WEST (decide (0 < x)) (x - 1) y EAST with hm4
  exact deliverLocal_inv m4 x y h4
    (by rw [f4.1, f3.1, f2.1, f1.1]; exact hx)
    (by rw [f4.2.1, f3.2.1, f2.2.1, f1.2.1]; exact hy)

theorem transferStep_frame (mn : MeshNetwork) (xy : Nat × Nat) :
    (mn.transferStep xy).width = mn.width ∧
      (mn.transferStep xy).height = mn.height := by
  obtain ⟨x, y⟩ := xy
  simp only [MeshNetwork.transferStep]
  constructor
  · rw [(deliverLocal_frame _ _ _).1, (transferDir_frame _ _ _ _ _ _ _ _).1,
      (transferDir_frame _ _ _ _ _ _ _ _).1, (transferDir_frame _ _ _ _ _ _ _ _).1,
      (transferDir_frame _ _ _ _ _ _ _ _).1]
  · rw [(deliverLocal_frame _ _ _).2, (transferDir_frame _ _ _ _ _ _ _ _).2.1,
      (transferDir_frame _ _ _ _ _ _ _ _).2.1, (transferDir_frame _ _ _ _ _ _ _ _).2.1,
      (transferDir_frame _ _ _ _ _ _ _ _).2.1]

theorem mem_gridCoords (w h : Nat) (xy : Nat × Nat) :
    xy ∈ gridCoords w h ↔ xy.1 < w ∧ xy.2 < h := by
  obtain ⟨x, y⟩ := xy
  simp only [gridCoords, List.mem_flatMap, List.mem_map, List.mem_range]
  constructor
  · rintro ⟨a, ha, b, hb, heq⟩
    obtain ⟨h1, h2⟩ := Prod.mk.injEq a b x y ▸ heq
    subst h1; subst h2
    exact ⟨ha, hb⟩
  · rintro ⟨hx, hy⟩
    exact ⟨x, hx, y, hy, rfl⟩

theorem foldl_transferStep_inv (l : List (Nat × Nat)) :
    ∀ mn : MeshNetwork, MeshInv mn →
      (∀ xy ∈ l, xy.1 < mn.width.toNat ∧ xy.2 < mn.height.toNat) →
      MeshInv (l.foldl MeshNetwork.transferStep mn) ∧
        (l.foldl MeshNetwork.transferStep mn).width = mn.width ∧
        (l.foldl MeshNetwork.transferStep mn).height = mn.height := by
  induction l with
  | nil => intro mn h _; exact ⟨h, rfl, rfl⟩
  | cons xy rest ih =>
      intro mn h hmem
      have hxy := hmem xy (List.mem_cons_self xy rest)
      have hstep := transferStep_inv mn xy h hxy.1 hxy.2
      have hframe := transferStep_frame mn xy
      have hrest := ih (mn.transferStep xy) hstep (by
        intro ab hab
        have := hmem ab (List.mem_cons_of_mem xy hab)
        rw [hframe.1, hframe.2]
        exact this)
      simp only [List.foldl_cons]
      exact ⟨hrest.1, by rw [hrest.2.1, hframe.1], by rw [hrest.2.2, hframe.2]⟩

theorem meshCycle_inv (orders : Nat → Nat → List Direction) (mn : MeshNetwork)
    (hinv : MeshInv mn) : MeshInv (mn.Cycle orders) := by
  obtain ⟨hrt, hlog⟩ := hinv
  have hphase1 : MeshInv
      { mn with routers := fun x y =>
          if x < mn.width.toNat ∧ y < mn.height.toNat then
            Router.Cycle (orders x y) (mn.routers x y)
          else mn.routers x y } := by
    constructor
    · intro x y hx hy
      simp only at hx hy ⊢
      rw [if_pos ⟨hx, hy⟩]
      exact routerCycle_inv x y (orders x y) (mn.routers x y) (hrt x y hx hy)
    · exact hlog
  simp only [MeshNetwork.Cycle]
  have hfold := foldl_transferStep_inv
    (gridCoords mn.width.toNat mn.height.toNat) _ hphase1 (by
      intro xy hxy
      exact (mem_gridCoords _ _ xy).mp hxy)
  obtain ⟨⟨g1, g2⟩, _, _⟩ := hfold
  exact ⟨g1, g2⟩

theorem meshInject_inv (mn : MeshNetwork) (srcX srcY dstX dstY : Int)
    (data : List Nat) (hinv : MeshInv mn) :
    MeshInv (mn.InjectPacket srcX srcY dstX dstY data).1 := by
  obtain ⟨hrt, hlog⟩ := hinv
  by_cases hv1 : ¬ mn.isValidPosition srcX srcY = true
  · simp only [MeshNetwork.InjectPacket, hv1, if_true]
    exact ⟨hrt, hlog⟩
  · by_cases hv2 : ¬ mn.isValidPosition dstX dstY = true
    · simp only [MeshNetwork.InjectPacket, hv1, hv2, if_true, if_false]
      exact ⟨hrt, hlog⟩
    · simp only [MeshNetwork.InjectPacket, hv1, hv2, if_false]
      push_neg at hv1
      have hvalid := hv1
      simp only [MeshNetwork.isValidPosition, Bool.decide_and, Bool.and_eq_true,
        decide_eq_true_eq] at hvalid
      obtain ⟨hx0, hxw, hy0, hyh⟩ := hvalid
      have hxn : srcX.toNat < mn.width.toNat := by omega
      have hyn : srcY.toNat < mn.height.toNat := by omega
      set packet := { NewPacket srcX 0 srcY dstX 0 dstY data mn.nextPacketID.toNat
        with Timestamp := mn.cycles } with hpkt
      have hp : (distSrc packet srcX.toNat srcY.toNat : Int) ≤ packet.HopCount := by
        have : distSrc packet srcX.toNat srcY.toNat = 0 := by
          unfold distSrc
          simp only [hpkt, NewPacket]
          omega
        rw [this]
        simp [hpkt, NewPacket]
      split
      next hrc =>
        constructor
        · intro a b ha hb
          simp only [updateGrid_apply] at *
          by_cases hab : a = srcX.toNat ∧ b = srcY.toNat
          · rw [if_pos hab]
            obtain ⟨ha1, hb1⟩ := hab
            subst ha1; subst hb1
            exact receivePacket_inv srcX.toNat srcY.toNat
              (mn.routers srcX.toNat srcY.toNat) packet LOCAL
              (hrt srcX.toNat srcY.toNat ha hb) hp
          · rw [if_neg hab]
            exact hrt a b ha hb
        · exact hlog
      next => exact ⟨hrt, hlog⟩

theorem meshInit_inv (width height : Int) (algorithm : RoutingAlgorithm) :
    MeshInv (MeshNetwork.Init width height algorithm) := by
  constructor
  · intro x y _ _
    refine ⟨rfl, rfl, ?_, ?_⟩
    · intro d p hocc
      exact absurd hocc (by simp [MeshNetwork.Init, Router.Init])
    · intro d p hocc
      exact absurd hocc (by simp [MeshNetwork.Init, Router.Init])
  · intro p hp
    exact absurd hp (by simp [MeshNetwork.Init])

theorem meshRun_inv (ops : List MeshOp) :
    ∀ mn : MeshNetwork, MeshInv mn → MeshInv (mn.run ops) := by
  induction ops with
  | nil => intro mn h; exact h
  | cons op rest ih =>
      intro mn h
      cases op with
      | inject sx sy dx dy data =>
          exact ih _ (meshInject_inv mn sx sy dx dy data h)
      | cycle orders =>
          exact ih _ (meshCycle_inv orders mn h)

/-- C3: for every packet that MeshNetwork counts as delivered (removed
from the in-flight set via the LOCAL output of the router at its
destination), its hop count at the moment of delivery is at least the
Manhattan distance between its source and destination mesh coordinates,
for every initial mesh, every trace of InjectPacket/Cycle operations
and every admissible per-router map iteration order. -/
theorem delivered_hopCount_ge_manhattan (width height : Int)
    (algorithm : RoutingAlgorithm) (ops : List MeshOp) (p : Packet)
    (hp : p ∈ ((MeshNetwork.Init width height algorithm).run ops).deliveredLog) :
    (manhattanSD p : Int) ≤ p.HopCount :=
  (meshRun_inv ops _ (meshInit_inv width height algorithm)).2 p hp

/-- The documented Go map iteration order used as a sample order in
concrete runs. -/
def sampleOrders : Nat → Nat → List Direction := fun _ _ => directionList

/-- Concrete two-operation trace on a 1×1 mesh used by the witness. -/
def witnessOps : List MeshOp :=
  [MeshOp.inject 0 0 0 0 [9], MeshOp.cycle sampleOrders]

/-- The packet delivered by `witnessOps`. -/
def witnessPacket : Packet where
  SrcChannelID := 0
  SrcRankID := 0
  SrcDpuID := 0
  DstChannelID := 0
  DstRankID := 0
  DstDpuID := 0
  Data := [9]
  HopCount := 1
  CurrentX := 0
  CurrentY := 0
  Timestamp := 0
  pid := 0

/-- Witness for C3: the hypothesis of the theorem is satisfiable — the
concrete trace `witnessOps` delivers `witnessPacket`, and the theorem
applies to it. -/
theorem delivered_hopCount_ge_manhattan_witness :
    witnessPacket ∈
      ((MeshNetwork.Init 1 1 XY_ROUTING).run witnessOps).deliveredLog ∧
      (manhattanSD witnessPacket : Int) ≤ witnessPacket.HopCount :=
  ⟨by decide, delivered_hopCount_ge_manhattan 1 1 XY_ROUTING witnessOps
    witnessPacket (by decide)⟩

/-- Router state for the C1 evaluation: a router at (1,1) with XY
routing that has received a packet on WEST (destination (2,1)) and a
packet on SOUTH (destination (2,1)); both compute next hop EAST.  This
state is reachable through two Router.ReceivePacket calls (the setup of
the backpressure test in router_test.go). -/
def contendingRouter : Router :=
  (((Router.Init 1 1 XY_ROUTING).ReceivePacket
      (NewPacket 0 0 0 2 0 1 [1] 1) WEST).1.ReceivePacket
      (NewPacket 0 0 1 2 0 1 [2] 2) SOUTH).1

/-- The documented enumeration order. -/
def orderDocumented : List Direction := [NORTH, SOUTH, EAST, WEST, LOCAL]

/-- Another admissible Go map iteration order over the five keys. -/
def orderAlternative : List Direction := [LOCAL, WEST, EAST, SOUTH, NORTH]

/-- C1 evaluation: Router.Cycle iterates the Go map `r.InputPorts`,
whose order is unspecified; both listed orders are permutations of the
key set, yet running Cycle on the same contending state under the two
orders yields different port assignments (a different packet wins the
EAST output and a different input stays occupied).  The claimed fixed
NORTH→SOUTH→EAST→WEST→LOCAL examination order and the claimed
run-to-run reproducibility therefore fail on the code. -/
theorem router_cycle_map_order_nondeterministic :
    orderDocumented.Perm directionList ∧
      orderAlternative.Perm directionList ∧
      ((Router.Cycle orderDocumented contendingRouter).OutputPorts EAST).Packet ≠
        ((Router.Cycle orderAlternative contendingRouter).OutputPorts EAST).Packet ∧
      ((Router.Cycle orderDocumented contendingRouter).InputPorts WEST).Occupied =
          true ∧
      ((Router.Cycle orderAlternative contendingRouter).InputPorts SOUTH).Occupied =
          true := by
  refine ⟨?_, ?_, ?_, ?_, ?_⟩ <;> decide

/-- Mesh operation trace for the C2 evaluation, on a 3×2 mesh with YX
routing: two packets destined (2,1) are injected at (0,1) and (1,0) and
routed into router (1,1), where they contend for EAST; two further
packets destined (1,1) are injected behind them.  During the second
Cycle one feeder's hand-off fails (the blocked packet still occupies
the target input port), and the third Cycle's clear phase then drops
the stalled packet from its output port while it remains in the
in-flight set. -/
def c2ops : List MeshOp :=
  [MeshOp.inject 0 1 2 1 [1],
    MeshOp.inject 1 0 2 1 [2],
    MeshOp.cycle sampleOrders,
    MeshOp.inject 1 0 1 1 [3],
    MeshOp.inject 0 1 1 1 [4],
    MeshOp.cycle sampleOrders,
    MeshOp.cycle sampleOrders]

/-- The mesh state after the C2 trace. -/
def c2state : MeshNetwork := (MeshNetwork.Init 3 2 YX_ROUTING).run c2ops

/-- C2 evaluation: after the trace `c2ops` the network holds two
in-flight packets but only one occupied port — the claimed equality
between the summed port occupancies and the size of the in-flight set
fails on a reachable trace (one packet was dropped by Router.Cycle's
clear phase after a transfer stall and occupies no port at all). -/
theorem mesh_port_occupancy_mismatch :
    c2state.portOccupancy = 1 ∧ c2state.activePackets.length = 2 ∧
      c2state.portOccupancy ≠ c2state.activePackets.length := by
  refine ⟨?_, ?_, ?_⟩ <;> decide

/-- TransferRequest (interconnect.go). -/
structure TransferRequest where
  SrcChannelID : Int
  SrcRankID : Int
  SrcDpuID : Int
  DstChannelID : Int
  DstRankID : Int
  DstDpuID : Int
  Data : List Nat
  Timestamp : Int
deriving DecidableEq, Repr

/-- Interconnect (interconnect.go).  The Go map `sharedBuffer`, keyed by
the string "channel-rank-dpu", is modelled as a function from the key
triple; `transferQueues : map[int][]*TransferRequest` (whose key set is
fixed at Init to the channel ids) is modelled as a function from
channel id to its queue.  `appliedLog` is a ghost observer recording,
in order, the requests that Cycle applied to the shared buffer. -/
structure Interconnect where
  sharedBuffer : Int → Int → Int → Option (List Nat)
  transferQueues : Int → List TransferRequest
  totalTransfers : Int
  totalBytesTransferred : Int
  cycles : Int
  numChannels : Int
  numRanks : Int
  numDPUs : Int
  bandwidth : Int
  appliedLog : List TransferRequest

/-- Pointwise update of the shared buffer at one key triple. -/
def updateBuffer (f : Int → Int → Int → Option (List Nat))
    (c r d : Int) (v : Option (List Nat)) : Int → Int → Int → Option (List Nat) :=
  fun a b e => if a = c ∧ b = r ∧ e = d then v else f a b e

/-- Interconnect.Init (interconnect.go): empty buffer, empty queues,
zero counters.  (The Go panic on non-positive dimensions is outside the
behaviour used here.) -/
def Interconnect.Init (numChannels numRanks numDPUs : Int)
    (bandwidth : Int) : Interconnect where
  sharedBuffer := fun _ _ _ => none
  transferQueues := fun _ => []
  totalTransfers := 0
  totalBytesTransferred := 0
  cycles := 0
  numChannels := numChannels
  numRanks := numRanks
  numDPUs := numDPUs
  bandwidth := bandwidth
  appliedLog := []

/-- validateDPUCoordinates (interconnect.go). -/
def Interconnect.validateDPUCoordinates (ic : Interconnect)
    (channelID rankID dpuID : Int) : Bool :=
  0 ≤ channelID ∧ channelID < ic.numChannels ∧
    0 ≤ rankID ∧ rankID < ic.numRanks ∧ 0 ≤ dpuID ∧ dpuID < ic.numDPUs

/-- Interconnect.Write (interconnect.go): replace the buffer under the
key with (a copy of) the data and count the transfer at call time.
Returns `false` in place of the Go error. -/
def Interconnect.Write (ic : Interconnect) (channelID rankID dpuID : Int)
    (data : List Nat) : Interconnect × Bool :=
  if ic.validateDPUCoordinates channelID rankID dpuID then
    ({ ic with
        sharedBuffer := updateBuffer ic.sharedBuffer channelID rankID dpuID
          (some data)
        totalTransfers := ic.totalTransfers + 1
        totalBytesTransferred := ic.totalBytesTransferred + data.length },
      true)
  else (ic, false)

/-- Interconnect.Read (interconnect.go): pure; `none` in place of the
Go errors. -/
def Interconnect.Read (ic : Interconnect)
    (srcChannelID srcRankID srcDpuID : Int) : Option (List Nat) :=
  if ic.validateDPUCoordinates srcChannelID srcRankID srcDpuID then
    ic.sharedBuffer srcChannelID srcRankID srcDpuID
  else none

/-- Interconnect.Transfer (interconnect.go): validate both endpoints and
append the request to the queue of its source channel.  The counters
are not touched. -/
def Interconnect.Transfer (ic : Interconnect) (req : TransferRequest) :
    Interconnect × Bool :=
  if ¬ ic.validateDPUCoordinates req.SrcChannelID req.SrcRankID req.SrcDpuID then
    (ic, false)
  else if ¬ ic.validateDPUCoordinates req.DstChannelID req.DstRankID req.DstDpuID
  then (ic, false)
  else
    ({ ic with
        transferQueues := fun ch =>
          if ch = req.SrcChannelID then ic.transferQueues req.SrcChannelID ++ [req]
          else ic.transferQueues ch },
      true)

/-- The per-channel body of Interconnect.Cycle (interconnect.go): if the
channel's queue is non-empty, pop its head, write the data to the
destination key and count the transfer. -/
def Interconnect.cycleChannel (ic : Interconnect) (channelID : Int) :
    Interconnect :=
  match ic.transferQueues channelID with
  | [] => ic
  | req :: rest =>
      { ic with
          transferQueues := fun ch =>
            if ch = channelID then rest else ic.transferQueues ch
          sharedBuffer := updateBuffer ic.sharedBuffer req.DstChannelID
            req.DstRankID req.DstDpuID (some req.Data)
          totalTransfers := ic.totalTransfers + 1
          totalBytesTransferred := ic.totalBytesTransferred + req.Data.length
          appliedLog := ic.appliedLog ++ [req] }

/-- Interconnect.Cycle (interconnect.go): the Go loop
`for channelID := range ic.transferQueues` iterates the map keys (the
channel ids) in unspecified order; the order is the parameter `chans`.
At most one request is processed per channel. -/
def Interconnect.Cycle (chans : List Int) (ic : Interconnect) : Interconnect :=
  let processed := chans.foldl Interconnect.cycleChannel ic
  { processed with cycles := processed.cycles + 1 }

/-- Interconnect.IsEmpty (interconnect.go), over the fixed key set
0..numChannels-1. -/
def Interconnect.IsEmpty (ic : Interconnect) : Bool :=
  (List.range ic.numChannels.toNat).all fun c => ic.transferQueues c = []

theorem cycleChannel_queue_self (ic : Interconnect) (c : Int) :
    (ic.cycleChannel c).transferQueues c = (ic.transferQueues c).tail := by
  unfold Interconnect.cycleChannel
  split
  next heq => rw [heq]; rfl
  next req rest heq => simp [heq]

theorem cycleChannel_queue_other (ic : Interconnect) (c c2 : Int) (h : c2 ≠ c) :
    (ic.cycleChannel c).transferQueues c2 = ic.transferQueues c2 := by
  unfold Interconnect.cycleChannel
  split
  next => rfl
  next req rest heq => simp [h]

theorem cycleChannel_empty (ic : Interconnect) (c : Int)
    (h : ic.transferQueues c = []) : ic.cycleChannel c = ic := by
  unfold Interconnect.cycleChannel
  split
  next => rfl
  next req rest heq => rw [h] at heq; cases heq

theorem cycleChannel_pop (ic : Interconnect) (c : Int) (req : TransferRequest)
    (rest : List TransferRequest) (h : ic.transferQueues c = req :: rest) :
    ic.cycleChannel c =
      { ic with
          transferQueues := fun ch =>
            if ch = c then rest else ic.transferQueues ch
          sharedBuffer := updateBuffer ic.sharedBuffer req.DstChannelID
            req.DstRankID req.DstDpuID (some req.Data)
          totalTransfers := ic.totalTransfers + 1
          totalBytesTransferred := ic.totalBytesTransferred + req.Data.length
          appliedLog := ic.appliedLog ++ [req] } := by
  unfold Interconnect.cycleChannel
  split
  next heq => rw [h] at heq; cases heq
  next req2 rest2 heq =>
    rw [h] at heq
    injection heq with h1 h2
    subst h1; subst h2
    rfl

theorem foldl_cycleChannel_queue_skip (chans : List Int) (c : Int) :
    ∀ ic : Interconnect, c ∉ chans →
      (chans.foldl Interconnect.cycleChannel ic).transferQueues c =
        ic.transferQueues c := by
  induction chans with
  | nil => intro ic _; rfl
  | cons a rest ih =>
      intro ic hmem
      simp only [List.mem_cons, not_or] at hmem
      simp only [List.foldl_cons]
      rw [ih (ic.cycleChannel a) hmem.2,
        cycleChannel_queue_other ic a c (by exact fun h => hmem.1 h)]

theorem foldl_cycleChannel_queue_one (chans : List Int) (c : Int) :
    ∀ ic : Interconnect, chans.count c = 1 →
      (chans.foldl Interconnect.cycleChannel ic).transferQueues c =
        (ic.transferQueues c).tail := by
  induction chans with
  | nil => intro ic h; cases h
  | cons a rest ih =>
      intro ic hcount
      simp only [List.foldl_cons]
      by_cases ha : a = c
      · subst ha
        have hrest : rest.count a = 0 := by
          simp only [List.count_cons_self] at hcount
          omega
        have : a ∉ rest := by
          intro hmem
          have := List.count_pos_iff.mpr hmem
          omega
        rw [foldl_cycleChannel_queue_skip rest a _ this,
          cycleChannel_queue_self]
      · have hrest : rest.count c = 1 := by
          rw [List.count_cons_of_ne (by exact fun h => ha h.symm)] at hcount
          exact hcount
        rw [ih (ic.cycleChannel a) hrest,
          cycleChannel_queue_other ic a c (by exact fun h => ha h.symm)]

theorem foldl_cycleChannel_all_empty (chans : List Int) :
    ∀ ic : Interconnect, (∀ c2 ∈ chans, ic.transferQueues c2 = []) →
      chans.foldl Interconnect.cycleChannel ic = ic := by
  induction chans with
  | nil => intro ic _; rfl
  | cons a rest ih =>
      intro ic h
      simp only [List.foldl_cons]
      rw [cycleChannel_empty ic a (h a (List.mem_cons_self a rest))]
      exact ih ic fun c2 hc2 => h c2 (List.mem_cons_of_mem a hc2)

theorem foldl_cycleChannel_eq_pop (chans : List Int) (c : Int) :
    ∀ ic : Interconnect, chans.count c = 1 →
      (∀ c2 ∈ chans, c2 ≠ c → ic.transferQueues c2 = []) →
      chans.foldl Interconnect.cycleChannel ic = ic.cycleChannel c := by
  induction chans with
  | nil => intro ic h; cases h
  | cons a rest ih =>
      intro ic hcount hempty
      simp only [List.foldl_cons]
      by_cases ha : a = c
      · subst ha
        have hrest : rest.count a = 0 := by
          simp only [List.count_cons_self] at hcount
          omega
        have hnotmem : a ∉ rest := by
          intro hmem
          have := List.count_pos_iff.mpr hmem
          omega
        apply foldl_cycleChannel_all_empty
        intro c2 hc2
        by_cases hc2a : c2 = a
        · exact absurd (hc2a ▸ hc2) hnotmem
        · rw [cycleChannel_queue_other ic a c2 hc2a]
          exact hempty c2 (List.mem_cons_of_mem a hc2) hc2a
      · have hq : ic.transferQueues a = [] :=
          hempty a (List.mem_cons_self a rest) ha
        rw [cycleChannel_empty ic a hq]
        have hrest : rest.count c = 1 := by
          rw [List.count_cons_of_ne (by exact fun h => ha h.symm)] at hcount
          exact hcount
        exact ih ic hrest fun c2 hc2 hne =>
          hempty c2 (List.mem_cons_of_mem a hc2) hne

theorem cycle_described (chans : List Int) (c : Int) (ic : Interconnect)
    (hcount : chans.count c = 1)
    (hothers : ∀ c2, c2 ≠ c → ic.transferQueues c2 = []) :
    ic.Cycle chans =
      { ic.cycleChannel c with cycles := (ic.cycleChannel c).cycles + 1 } := by
  unfold Interconnect.Cycle
  rw [foldl_cycleChannel_eq_pop chans c ic hcount
    fun c2 _ hne => hothers c2 hne]

theorem drain_trace (cycleOrders : List (List Int)) (c : Int) :
    ∀ ic : Interconnect,
      (∀ ch ∈ cycleOrders, ch.count c = 1) →
      (∀ c2, c2 ≠ c → ic.transferQueues c2 = []) →
      ((cycleOrders.foldl (fun s ch => Interconnect.Cycle ch s) ic).transferQueues
          c = (ic.transferQueues c).drop cycleOrders.length) ∧
      (∀ c2, c2 ≠ c →
        (cycleOrders.foldl (fun s ch => Interconnect.Cycle ch s) ic).transferQueues
          c2 = []) ∧
      ((cycleOrders.foldl (fun s ch => Interconnect.Cycle ch s) ic).appliedLog =
        ic.appliedLog ++ (ic.transferQueues c).take cycleOrders.length) ∧
      ((cycleOrders.foldl (fun s ch => Interconnect.Cycle ch s) ic).totalTransfers
        = ic.totalTransfers +
          ((ic.transferQueues c).take cycleOrders.length).length) ∧
      ((cycleOrders.foldl (fun s ch =>
          Interconnect.Cycle ch s) ic).totalBytesTransferred =
        ic.totalBytesTransferred +
          (((ic.transferQueues c).take cycleOrders.length).map
            fun r => (r.Data.length : Int)).sum) := by
  induction cycleOrders with
  | nil =>
      intro ic _ hothers
      exact ⟨rfl, hothers, by simp, by simp, by simp⟩
  | cons ch rest ih =>
      intro ic hcount hothers
      simp only [List.foldl_cons]
      have hdesc := cycle_described ch c ic
        (hcount ch (List.mem_cons_self ch rest)) hothers
      rw [hdesc]
      cases hq : ic.transferQueues c with
      | nil =>
          have hpop := cycleChannel_empty ic c hq
          rw [hpop]
          have hnext : ∀ c2, c2 ≠ c →
              ({ ic with cycles := ic.cycles + 1 } :
                Interconnect).transferQueues c2 = [] := hothers
          have := ih { ic with cycles := ic.cycles + 1 }
            (fun ch2 h2 => hcount ch2 (List.mem_cons_of_mem ch h2)) hnext
          obtain ⟨g1, g2, g3, g4, g5⟩ := this
          refine ⟨?_, g2, ?_, ?_, ?_⟩
          · rw [g1]; simp [hq]
          · rw [g3]; simp [hq]
          · rw [g4]; simp [hq]
          · rw [g5]; simp [hq]
      | cons req rest2 =>
          have hpop := cycleChannel_pop ic c req rest2 hq
          rw [hpop]
          have hnext : ∀ c2, c2 ≠ c →
              ({ ic with
                  transferQueues := fun ch2 =>
                    if ch2 = c then rest2 else ic.transferQueues ch2
                  sharedBuffer := updateBuffer ic.sharedBuffer req.DstChannelID
                    req.DstRankID req.DstDpuID (some req.Data)
                  totalTransfers := ic.totalTransfers + 1
                  totalBytesTransferred :=
                    ic.totalBytesTransferred + req.Data.length
                  appliedLog := ic.appliedLog ++ [req],
                  cycles := ic.cycles + 1 } :
                Interconnect).transferQueues c2 = [] := by
            intro c2 hne
            simp only [if_neg hne]
            exact hothers c2 hne
          have := ih _
            (fun ch2 h2 => hcount ch2 (List.mem_cons_of_mem ch h2)) hnext
          obtain ⟨g1, g2, g3, g4, g5⟩ := this
          refine ⟨?_, g2, ?_, ?_, ?_⟩
          · rw [g1]; simp [hq]
          · rw [g3]; simp [hq, List.append_assoc]
          · rw [g4]; simp [hq]; omega
          · rw [g5]; simp [hq]; omega

theorem transfer_fields (ic : Interconnect) (req : TransferRequest) :
    (ic.Transfer req).1.totalTransfers = ic.totalTransfers ∧
      (ic.Transfer req).1.totalBytesTransferred = ic.totalBytesTransferred ∧
      (ic.Transfer req).1.appliedLog = ic.appliedLog ∧
      (ic.Transfer req).1.numChannels = ic.numChannels ∧
      (ic.Transfer req).1.numRanks = ic.numRanks ∧
      (ic.Transfer req).1.numDPUs = ic.numDPUs ∧
      (ic.Transfer req).1.cycles = ic.cycles := by
  unfold Interconnect.Transfer
  split
  · exact ⟨rfl, rfl, rfl, rfl, rfl, rfl, rfl⟩
  · split
    · exact ⟨rfl, rfl, rfl, rfl, rfl, rfl, rfl⟩
    · exact ⟨rfl, rfl, rfl, rfl, rfl, rfl, rfl⟩

theorem validate_congr (ic1 ic2 : Interconnect)
    (h1 : ic1.numChannels = ic2.numChannels) (h2 : ic1.numRanks = ic2.numRanks)
    (h3 : ic1.numDPUs = ic2.numDPUs) (a b c : Int) :
    ic1.validateDPUCoordinates a b c = ic2.validateDPUCoordinates a b c := by
  unfold Interconnect.validateDPUCoordinates
  rw [h1, h2, h3]

theorem transfer_success (ic : Interconnect) (req : TransferRequest)
    (h1 : ic.validateDPUCoordinates req.SrcChannelID req.SrcRankID
      req.SrcDpuID = true)
    (h2 : ic.validateDPUCoordinates req.DstChannelID req.DstRankID
      req.DstDpuID = true) :
    ((ic.Transfer req).1.transferQueues req.SrcChannelID =
        ic.transferQueues req.SrcChannelID ++ [req]) ∧
      (∀ c2, c2 ≠ req.SrcChannelID →
        (ic.Transfer req).1.transferQueues c2 = ic.transferQueues c2) := by
  unfold Interconnect.Transfer
  rw [h1, h2]
  simp only [Bool.not_true, Bool.false_eq_true, if_false]
  constructor
  · simp
  · intro c2 hne
    simp [hne]

theorem enqueue_trace (reqs : List TransferRequest) (c : Int) :
    ∀ ic : Interconnect,
      (∀ r ∈ reqs, r.SrcChannelID = c ∧
        ic.validateDPUCoordinates r.SrcChannelID r.SrcRankID r.SrcDpuID = true ∧
        ic.validateDPUCoordinates r.DstChannelID r.DstRankID r.DstDpuID = true) →
      ((reqs.foldl (fun s q => (Interconnect.Transfer s q).1) ic).transferQueues
          c = ic.transferQueues c ++ reqs) ∧
      (∀ c2, c2 ≠ c →
        (reqs.foldl (fun s q => (Interconnect.Transfer s q).1) ic).transferQueues
          c2 = ic.transferQueues c2) ∧
      ((reqs.foldl (fun s q => (Interconnect.Transfer s q).1) ic).appliedLog =
        ic.appliedLog) ∧
      ((reqs.foldl (fun s q => (Interconnect.Transfer s q).1) ic).totalTransfers
        = ic.totalTransfers) ∧
      ((reqs.foldl (fun s q =>
          (Interconnect.Transfer s q).1) ic).totalBytesTransferred =
        ic.totalBytesTransferred) := by
  induction reqs with
  | nil => intro ic _; exact ⟨by simp, fun _ _ => rfl, rfl, rfl, rfl⟩
  | cons req rest ih =>
      intro ic hval
      have hreq := hval req (List.mem_cons_self req rest)
      have hf := transfer_fields ic req
      have hs := transfer_success ic req hreq.2.1 hreq.2.2
      simp only [List.foldl_cons]
      have hrest := ih (ic.Transfer req).1 (by
        intro r hr
        have := hval r (List.mem_cons_of_mem req hr)
        refine ⟨this.1, ?_, ?_⟩
        · rw [validate_congr (ic.Transfer req).1 ic hf.2.2.2.1 hf.2.2.2.2.1
            hf.2.2.2.2.2.1]
          exact this.2.1
        · rw [validate_congr (ic.Transfer req).1 ic hf.2.2.2.1 hf.2.2.2.2.1
            hf.2.2.2.2.2.1]
          exact this.2.2)
      obtain ⟨g1, g2, g3, g4, g5⟩ := hrest
      refine ⟨?_, ?_, ?_, ?_, ?_⟩
      · rw [g1]
        rw [hreq.1] at hs
        rw [hs.1]
        simp
      · intro c2 hne
        rw [g2 c2 hne]
        rw [hreq.1] at hs
        exact hs.2 c2 hne
      · rw [g3, hf.2.2.1]
      · rw [g4, hf.1]
      · rw [g5, hf.2.1]

/-- C6: the coarse Interconnect retires at most one queued
TransferRequest per channel per Cycle() call — after any Cycle whose
channel iteration visits channel c exactly once, channel c's queue is
exactly the tail of what it was — and within a channel queued transfers
retire in FIFO order: starting from Init, enqueueing `reqs` on channel
c and running any number of Cycles applies the requests to the shared
buffer in exactly the order they were enqueued (the applied sequence is
a prefix of `reqs`, the queue holds the matching suffix). -/
theorem interconnect_channel_fifo (numChannels numRanks numDPUs bandwidth : Int)
    (reqs : List TransferRequest) (c : Int) (cycleOrders : List (List Int))
    (hreqs : ∀ r ∈ reqs, r.SrcChannelID = c ∧
      (Interconnect.Init numChannels numRanks numDPUs
        bandwidth).validateDPUCoordinates r.SrcChannelID r.SrcRankID
          r.SrcDpuID = true ∧
      (Interconnect.Init numChannels numRanks numDPUs
        bandwidth).validateDPUCoordinates r.DstChannelID r.DstRankID
          r.DstDpuID = true)
    (horders : ∀ ch ∈ cycleOrders, ch.count c = 1) :
    (∀ (ic : Interconnect) (chans : List Int) (c2 : Int), chans.count c2 = 1 →
      (ic.Cycle chans).transferQueues c2 = (ic.transferQueues c2).tail) ∧
    (cycleOrders.foldl (fun s ch => Interconnect.Cycle ch s)
        (reqs.foldl (fun s q => (Interconnect.Transfer s q).1)
          (Interconnect.Init numChannels numRanks numDPUs
            bandwidth))).appliedLog = reqs.take cycleOrders.length ∧
    (cycleOrders.foldl (fun s ch => Interconnect.Cycle ch s)
        (reqs.foldl (fun s q => (Interconnect.Transfer s q).1)
          (Interconnect.Init numChannels numRanks numDPUs
            bandwidth))).transferQueues c = reqs.drop cycleOrders.length := by
  have henq := enqueue_trace reqs c
    (Interconnect.Init numChannels numRanks numDPUs bandwidth) hreqs
  obtain ⟨e1, e2, e3, e4, e5⟩ := henq
  have hothers : ∀ c2, c2 ≠ c →
      (reqs.foldl (fun s q => (Interconnect.Transfer s q).1)
        (Interconnect.Init numChannels numRanks numDPUs
          bandwidth)).transferQueues c2 = [] := by
    intro c2 hne
    rw [e2 c2 hne]
    rfl
  have hdr := drain_trace cycleOrders c _ horders hothers
  obtain ⟨d1, _, d3, _, _⟩ := hdr
  refine ⟨?_, ?_, ?_⟩
  · intro ic chans c2 hc
    exact foldl_cycleChannel_queue_one chans c2 ic hc
  · rw [d3, e3, e1]
    simp [Interconnect.Init]
  · rw [d1, e1]
    simp [Interconnect.Init]

/-- A concrete request used by witnesses. -/
def witnessReq (i : Int) (data : List Nat) : TransferRequest where
  SrcChannelID := 0
  SrcRankID := 0
  SrcDpuID := i
  DstChannelID := 0
  DstRankID := 0
  DstDpuID := i + 1
  Data := data
  Timestamp := 0

/-- Witness for C6: a concrete two-request, two-cycle run on channel 0
of a 2×2×8 interconnect; the hypotheses of the theorem hold and the
theorem applies. -/
theorem interconnect_channel_fifo_witness :
    (∀ (ic : Interconnect) (chans : List Int) (c2 : Int), chans.count c2 = 1 →
      (ic.Cycle chans).transferQueues c2 = (ic.transferQueues c2).tail) ∧
    ([[0, 1], [1, 0]].foldl (fun s ch => Interconnect.Cycle ch s)
        ([witnessReq 0 [7], witnessReq 1 [8, 9]].foldl
          (fun s q => (Interconnect.Transfer s q).1)
          (Interconnect.Init 2 2 8 1024))).appliedLog =
      [witnessReq 0 [7], witnessReq 1 [8, 9]].take 2 ∧
    ([[0, 1], [1, 0]].foldl (fun s ch => Interconnect.Cycle ch s)
        ([witnessReq 0 [7], witnessReq 1 [8, 9]].foldl
          (fun s q => (Interconnect.Transfer s q).1)
          (Interconnect.Init 2 2 8 1024))).transferQueues 0 =
      [witnessReq 0 [7], witnessReq 1 [8, 9]].drop 2 :=
  interconnect_channel_fifo 2 2 8 1024 [witnessReq 0 [7], witnessReq 1 [8, 9]]
    0 [[0, 1], [1, 0]] (by decide) (by decide)

/-- C10: a Transfer call leaves totalTransfers and
totalBytesTransferred unchanged in every branch; a valid Write
increments both at call time; and a queued transfer is counted exactly
once, at the Cycle() call that drains it — after enqueueing `reqs` on
channel c from Init and running n Cycles, the counters equal the number
(and summed byte length) of the drained prefix `reqs.take n`, so no
request is ever counted twice. -/
theorem transfer_counters_once (numChannels numRanks numDPUs bandwidth : Int)
    (reqs : List TransferRequest) (c : Int) (cycleOrders : List (List Int))
    (hreqs : ∀ r ∈ reqs, r.SrcChannelID = c ∧
      (Interconnect.Init numChannels numRanks numDPUs
        bandwidth).validateDPUCoordinates r.SrcChannelID r.SrcRankID
          r.SrcDpuID = true ∧
      (Interconnect.Init numChannels numRanks numDPUs
        bandwidth).validateDPUCoordinates r.DstChannelID r.DstRankID
          r.DstDpuID = true)
    (horders : ∀ ch ∈ cycleOrders, ch.count c = 1) :
    (∀ (ic : Interconnect) (req : TransferRequest),
      (ic.Transfer req).1.totalTransfers = ic.totalTransfers ∧
        (ic.Transfer req).1.totalBytesTransferred =
          ic.totalBytesTransferred) ∧
    (∀ (ic : Interconnect) (ch rk dp : Int) (data : List Nat),
      ic.validateDPUCoordinates ch rk dp = true →
        (ic.Write ch rk dp data).1.totalTransfers = ic.totalTransfers + 1 ∧
        (ic.Write ch rk dp data).1.totalBytesTransferred =
          ic.totalBytesTransferred + data.length) ∧
    (cycleOrders.foldl (fun s ch => Interconnect.Cycle ch s)
        (reqs.foldl (fun s q => (Interconnect.Transfer s q).1)
          (Interconnect.Init numChannels numRanks numDPUs
            bandwidth))).totalTransfers =
      ((reqs.take cycleOrders.length).length : Int) ∧
    (cycleOrders.foldl (fun s ch => Interconnect.Cycle ch s)
        (reqs.foldl (fun s q => (Interconnect.Transfer s q).1)
          (Interconnect.Init numChannels numRanks numDPUs
            bandwidth))).totalBytesTransferred =
      ((reqs.take cycleOrders.length).map fun r => (r.Data.length : Int)).sum := by
  have henq := enqueue_trace reqs c
    (Interconnect.Init numChannels numRanks numDPUs bandwidth) hreqs
  obtain ⟨e1, e2, _, e4, e5⟩ := henq
  have hothers : ∀ c2, c2 ≠ c →
      (reqs.foldl (fun s q => (Interconnect.Transfer s q).1)
        (Interconnect.Init numChannels numRanks numDPUs
          bandwidth)).transferQueues c2 = [] := by
    intro c2 hne
    rw [e2 c2 hne]
    rfl
  have hdr := drain_trace cycleOrders c _ horders hothers
  obtain ⟨_, _, _, d4, d5⟩ := hdr
  refine ⟨?_, ?_, ?_, ?_⟩
  · intro ic req
    have := transfer_fields ic req
    exact ⟨this.1, this.2.1⟩
  · intro ic ch rk dp data hv
    unfold Interconnect.Write
    rw [hv]
    simp
  · rw [d4, e4, e1]
    simp [Interconnect.Init]
  · rw [d5, e5, e1]
    simp [Interconnect.Init]

/-- Witness for C10: the same concrete run as the C6 witness; the
hypotheses hold and the theorem applies (with a valid Write instance in
the second conjunct used at its stated generality). -/
theorem transfer_counters_once_witness :
    (∀ (ic : Interconnect) (req : TransferRequest),
      (ic.Transfer req).1.totalTransfers = ic.totalTransfers ∧
        (ic.Transfer req).1.totalBytesTransferred =
          ic.totalBytesTransferred) ∧
    (∀ (ic : Interconnect) (ch rk dp : Int) (data : List Nat),
      ic.validateDPUCoordinates ch rk dp = true →
        (ic.Write ch rk dp data).1.totalTransfers = ic.totalTransfers + 1 ∧
        (ic.Write ch rk dp data).1.totalBytesTransferred =
          ic.totalBytesTransferred + data.length) ∧
    ([[0, 1], [1, 0]].foldl (fun s ch => Interconnect.Cycle ch s)
        ([witnessReq 0 [7], witnessReq 1 [8, 9]].foldl
          (fun s q => (Interconnect.Transfer s q).1)
          (Interconnect.Init 2 2 8 1024))).totalTransfers =
      (([witnessReq 0 [7], witnessReq 1 [8, 9]].take 2).length : Int) ∧
    ([[0, 1], [1, 0]].foldl (fun s ch => Interconnect.Cycle ch s)
        ([witnessReq 0 [7], witnessReq 1 [8, 9]].foldl
          (fun s q => (Interconnect.Transfer s q).1)
          (Interconnect.Init 2 2 8 1024))).totalBytesTransferred =
      (([witnessReq 0 [7], witnessReq 1 [8, 9]].take 2).map
        fun r => (r.Data.length : Int)).sum :=
  transfer_counters_once 2 2 8 1024 [witnessReq 0 [7], witnessReq 1 [8, 9]]
    0 [[0, 1], [1, 0]] (by decide) (by decide)

/-- CrossbarSwitch (inter_chip_switch.go): an N_in × N_out switching
matrix with a forward map `connections` (inputID → outputID, −1 when
unconnected) and the reverse map `reverseConnections`.  The Go slices
are modelled as `List Int`. -/
structure CrossbarSwitch where
  numInputs : Int
  numOutputs : Int
  connections : List Int
  reverseConnections : List Int
  totalSwitches : Int
  blockedAttempts : Int
  cycles : Int
deriving DecidableEq, Repr

/-- Read a Go slice of ints at an int index.  Every access in the
source is guarded to be in range, so the out-of-range default (Go would
panic) is never relevant. -/
def getI (l : List Int) (i : Int) : Int := l.getD i.toNat 0

/-- CrossbarSwitch.Init (inter_chip_switch.go). -/
def CrossbarSwitch.Init (numInputs numOutputs : Int) : CrossbarSwitch where
  numInputs := numInputs
  numOutputs := numOutputs
  connections := List.replicate numInputs.toNat (-1)
  reverseConnections := List.replicate numOutputs.toNat (-1)
  totalSwitches := 0
  blockedAttempts := 0
  cycles := 0

/-- CrossbarSwitch.Connect (inter_chip_switch.go): fails silently on an
out-of-range id; fails counting a blocked attempt when the output is
already claimed; otherwise releases the input's previous output, if
any, and records the new pairing. -/
def CrossbarSwitch.Connect (cs : CrossbarSwitch) (inputID outputID : Int) :
    CrossbarSwitch × Bool :=
  if inputID < 0 ∨ cs.numInputs ≤ inputID then (cs, false)
  else if outputID < 0 ∨ cs.numOutputs ≤ outputID then (cs, false)
  else if getI cs.reverseConnections outputID ≠ -1 then
    ({ cs with blockedAttempts := cs.blockedAttempts + 1 }, false)
  else
    let cs1 :=
      if getI cs.connections inputID ≠ -1 then
        { cs with reverseConnections :=
            cs.reverseConnections.set (getI cs.connections inputID).toNat (-1) }
      else cs
    ({ cs1 with
        connections := cs1.connections.set inputID.toNat outputID
        reverseConnections := cs1.reverseConnections.set outputID.toNat inputID
        totalSwitches := cs1.totalSwitches + 1 },
      true)

/-- CrossbarSwitch.Disconnect (inter_chip_switch.go): releases both
sides of the input's connection, if any. -/
def CrossbarSwitch.Disconnect (cs : CrossbarSwitch) (inputID : Int) :
    CrossbarSwitch :=
  if inputID < 0 ∨ cs.numInputs ≤ inputID then cs
  else
    let outputID := getI cs.connections inputID
    if outputID ≠ -1 then
      { cs with
          connections := cs.connections.set inputID.toNat (-1)
          reverseConnections := cs.reverseConnections.set outputID.toNat (-1) }
    else cs

/-- CrossbarSwitch.IsConnected (inter_chip_switch.go). -/
def CrossbarSwitch.IsConnected (cs : CrossbarSwitch) (inputID : Int) : Bool :=
  getI cs.connections inputID ≠ -1

/-- CrossbarSwitch.GetConnection (inter_chip_switch.go). -/
def CrossbarSwitch.GetConnection (cs : CrossbarSwitch) (inputID : Int) : Int :=
  getI cs.connections inputID

/-- CrossbarSwitch.Cycle (inter_chip_switch.go). -/
def CrossbarSwitch.Cycle (cs : CrossbarSwitch) : CrossbarSwitch :=
  { cs with cycles := cs.cycles + 1 }

theorem set_getD_self (l : List Int) (n : Nat) (h : n < l.length) :
    l.set n (l.getD n 0) = l := by
  apply List.ext_getElem
  · simp
  · intro i h1 h2
    by_cases hi : i = n
    · subst hi
      rw [List.getElem_set_self, List.getD_eq_getElem?_getD,
        List.getElem?_eq_getElem h]
      rfl
    · rw [List.getElem_set_ne (by omega)]

theorem getD_set_self (l : List Int) (n : Nat) (v : Int) (h : n < l.length) :
    (l.set n v).getD n 0 = v := by
  rw [List.getD_eq_getElem?_getD, List.getElem?_set_self (by simpa using h)]
  rfl

theorem connect_blocked (cs : CrossbarSwitch) (i j : Int)
    (hi : ¬(i < 0 ∨ cs.numInputs ≤ i)) (hj : ¬(j < 0 ∨ cs.numOutputs ≤ j))
    (hrev : getI cs.reverseConnections j ≠ -1) :
    cs.Connect i j = ({ cs with blockedAttempts := cs.blockedAttempts + 1 },
      false) := by
  unfold CrossbarSwitch.Connect
  rw [if_neg hi, if_neg hj, if_pos hrev]

theorem connect_success_notconnected (cs : CrossbarSwitch) (i j : Int)
    (hi : ¬(i < 0 ∨ cs.numInputs ≤ i)) (hj : ¬(j < 0 ∨ cs.numOutputs ≤ j))
    (hrev : getI cs.reverseConnections j = -1)
    (hfree : getI cs.connections i = -1) :
    cs.Connect i j =
      ({ cs with
          connections := cs.connections.set i.toNat j
          reverseConnections := cs.reverseConnections.set j.toNat i
          totalSwitches := cs.totalSwitches + 1 },
        true) := by
  unfold CrossbarSwitch.Connect
  rw [if_neg hi, if_neg hj, if_neg (by simp [hrev])]
  simp only [hfree, ne_eq, not_true_eq_false, if_false]

theorem disconnect_noconn (cs : CrossbarSwitch) (i : Int)
    (hi : ¬(i < 0 ∨ cs.numInputs ≤ i)) (h : getI cs.connections i = -1) :
    cs.Disconnect i = cs := by
  unfold CrossbarSwitch.Disconnect
  rw [if_neg hi]
  simp [h]

theorem disconnect_conn (cs : CrossbarSwitch) (i j : Int)
    (hi : ¬(i < 0 ∨ cs.numInputs ≤ i)) (h : getI cs.connections i = j)
    (hj : j ≠ -1) :
    cs.Disconnect i =
      { cs with
          connections := cs.connections.set i.toNat (-1)
          reverseConnections := cs.reverseConnections.set j.toNat (-1) } := by
  unfold CrossbarSwitch.Disconnect
  rw [if_neg hi]
  simp only [h, ne_eq, hj, not_false_eq_true, if_true]

/-- The crossbar state with input 0 connected to output 2, reached from
Init(4,4) by one successful Connect; used to refute C5 as stated. -/
def c5prior : CrossbarSwitch := ((CrossbarSwitch.Init 4 4).Connect 0 2).1

/-- C5 counterexample: from a crossbar state in which input 0 is
already connected (to output 2), Connect(0,1) — an in-range pair —
followed by Disconnect(0) does not restore the connection maps: the
pre-existing pairing 0↔2 is lost. -/
theorem crossbar_connect_disconnect_not_restoring :
    (0 : Int) ≤ 0 ∧ 0 < c5prior.numInputs ∧ (0 : Int) ≤ 1 ∧
      1 < c5prior.numOutputs ∧
      ((c5prior.Connect 0 1).1.Disconnect 0).connections ≠
        c5prior.connections ∧
      ((c5prior.Connect 0 1).1.Disconnect 0).reverseConnections ≠
        c5prior.reverseConnections := by
  refine ⟨?_, ?_, ?_, ?_, ?_, ?_⟩ <;> decide

/-- C5 as amended: provided input i is unconnected beforehand
(connections[i] = −1), Connect(i,j) followed by Disconnect(i) restores
both connection maps exactly, whether the Connect was blocked or
succeeded. -/
theorem crossbar_connect_disconnect_restores (cs : CrossbarSwitch) (i j : Int)
    (hlen1 : cs.connections.length = cs.numInputs.toNat)
    (hlen2 : cs.reverseConnections.length = cs.numOutputs.toNat)
    (hi0 : 0 ≤ i) (hi1 : i < cs.numInputs) (hj0 : 0 ≤ j)
    (hj1 : j < cs.numOutputs) (hfree : getI cs.connections i = -1) :
    ((cs.Connect i j).1.Disconnect i).connections = cs.connections ∧
      ((cs.Connect i j).1.Disconnect i).reverseConnections =
        cs.reverseConnections := by
  have hi : ¬(i < 0 ∨ cs.numInputs ≤ i) := by omega
  have hj : ¬(j < 0 ∨ cs.numOutputs ≤ j) := by omega
  have hiN : i.toNat < cs.connections.length := by omega
  have hjN : j.toNat < cs.reverseConnections.length := by omega
  by_cases hrev : getI cs.reverseConnections j ≠ -1
  · rw [connect_blocked cs i j hi hj hrev]
    dsimp only
    rw [disconnect_noconn _ i (by exact hi) (by exact hfree)]
    exact ⟨rfl, rfl⟩
  · push_neg at hrev
    rw [connect_success_notconnected cs i j hi hj hrev hfree]
    dsimp only
    rw [disconnect_conn _ i j (by exact hi)
      (by exact getD_set_self cs.connections i.toNat j hiN) (by omega)]
    constructor
    · show (cs.connections.set i.toNat j).set i.toNat (-1) = cs.connections
      rw [List.set_set]
      have hfree2 : cs.connections.getD i.toNat 0 = -1 := hfree
      have := set_getD_self cs.connections i.toNat hiN
      rw [hfree2] at this
      exact this
    · show (cs.reverseConnections.set j.toNat i).set j.toNat (-1) =
        cs.reverseConnections
      rw [List.set_set]
      have hrev2 : cs.reverseConnections.getD j.toNat 0 = -1 := hrev
      have := set_getD_self cs.reverseConnections j.toNat hjN
      rw [hrev2] at this
      exact this

/-- Witness for the amended C5: a concrete in-range pair on a freshly
initialised 4×4 crossbar (input 0 unconnected); the theorem applies. -/
theorem crossbar_connect_disconnect_restores_witness :
    (((CrossbarSwitch.Init 4 4).Connect 0 1).1.Disconnect 0).connections =
        (CrossbarSwitch.Init 4 4).connections ∧
      (((CrossbarSwitch.Init 4 4).Connect 0 1).1.Disconnect 0).reverseConnections
        = (CrossbarSwitch.Init 4 4).reverseConnections :=
  crossbar_connect_disconnect_restores (CrossbarSwitch.Init 4 4) 0 1
    (by decide) (by decide) (by decide) (by decide) (by decide) (by decide)
    (by decide)

/-- C8: when input i is currently connected to output j, a further
Connect(i,j) with the same arguments returns false, increments
blockedAttempts, and leaves the connection maps (and hence the existing
pairing) in place — a re-assertion counts as a blocked attempt, not as
a no-op success. -/
theorem crossbar_reconnect_blocked (cs : CrossbarSwitch) (i j : Int)
    (hi0 : 0 ≤ i) (hi1 : i < cs.numInputs) (hj0 : 0 ≤ j)
    (hj1 : j < cs.numOutputs) (hconn : getI cs.connections i = j)
    (hrev : getI cs.reverseConnections j = i) :
    (cs.Connect i j).2 = false ∧
      (cs.Connect i j).1.blockedAttempts = cs.blockedAttempts + 1 ∧
      (cs.Connect i j).1.connections = cs.connections ∧
      (cs.Connect i j).1.reverseConnections = cs.reverseConnections ∧
      getI (cs.Connect i j).1.connections i = j := by
  have hb := connect_blocked cs i j (by omega) (by omega) (by omega)
  rw [hb]
  exact ⟨rfl, rfl, rfl, rfl, hconn⟩

/-- Witness for C8: on a 4×4 crossbar with 0 connected to 1, the
re-assertion Connect(0,1) is blocked; the theorem applies. -/
theorem crossbar_reconnect_blocked_witness :
    ((((CrossbarSwitch.Init 4 4).Connect 0 1).1.Connect 0 1).2 = false ∧
      (((CrossbarSwitch.Init 4 4).Connect 0 1).1.Connect 0 1).1.blockedAttempts
        = ((CrossbarSwitch.Init 4 4).Connect 0 1).1.blockedAttempts + 1 ∧
      (((CrossbarSwitch.Init 4 4).Connect 0 1).1.Connect 0 1).1.connections =
        ((CrossbarSwitch.Init 4 4).Connect 0 1).1.connections ∧
      (((CrossbarSwitch.Init 4 4).Connect 0 1).1.Connect 0 1).1.reverseConnections
        = ((CrossbarSwitch.Init 4 4).Connect 0 1).1.reverseConnections ∧
      getI (((CrossbarSwitch.Init 4 4).Connect 0 1).1.Connect 0
        1).1.connections 0 = 1) :=
  crossbar_reconnect_blocked ((CrossbarSwitch.Init 4 4).Connect 0 1).1 0 1
    (by decide) (by decide) (by decide) (by decide) (by decide) (by decide)

/-- DQPinPartition (inter_chip_switch.go). -/
structure DQPinPartition where
  totalPins : Int
  numChannels : Int
  pinsPerChannel : Int
  channelPins : Int → List Int

/-- DQPinPartition.Init (inter_chip_switch.go): fails unless totalPins
is a multiple of numChannels (Go integer `%` is truncated: Int.tmod);
assigns contiguous pin ranges to channels. -/
def DQPinPartition.Init (totalPins numChannels : Int) : Option DQPinPartition :=
  if totalPins.tmod numChannels ≠ 0 then none
  else
    some
      { totalPins := totalPins
        numChannels := numChannels
        pinsPerChannel := totalPins.tdiv numChannels
        channelPins := fun ch =>
          (List.range (totalPins.tdiv numChannels).toNat).map fun i =>
            ch * (totalPins.tdiv numChannels) + i }

/-- ChipTransfer (inter_chip_switch.go). -/
structure ChipTransfer where
  TransferID : Int
  SrcChipID : Int
  DstChipID : Int
  ChannelID : Int
  Data : List Nat
  StartCycle : Int
  EndCycle : Int
deriving DecidableEq, Repr

/-- InterChipSwitch (inter_chip_switch.go).  The Go map
`activeTransfers : map[int]*ChipTransfer` is modelled as an association
list keyed by transfer id. -/
structure InterChipSwitch where
  numChips : Int
  dqPartition : DQPinPartition
  crossbar : CrossbarSwitch
  activeTransfers : List (Int × ChipTransfer)
  nextTransferID : Int
  totalTransfers : Int
  totalBytes : Int
  cycles : Int

/-- InterChipSwitch.Init (inter_chip_switch.go). -/
def InterChipSwitch.Init (numChips totalDQPins numChannels : Int) :
    Option InterChipSwitch :=
  match DQPinPartition.Init totalDQPins numChannels with
  | none => none
  | some dq =>
      some
        { numChips := numChips
          dqPartition := dq
          crossbar := CrossbarSwitch.Init numChips numChips
          activeTransfers := []
          nextTransferID := 0
          totalTransfers := 0
          totalBytes := 0
          cycles := 0 }

/-- InterChipSwitch.StartTransfer (inter_chip_switch.go): validates the
chips and the channel, attempts the crossbar connection (whose blocked
counter may change even on failure), and only on success records a new
transfer.  Returns `none` in place of the Go error. -/
def InterChipSwitch.StartTransfer (ics : InterChipSwitch)
    (srcChip dstChip channelID : Int) (data : List Nat) :
    InterChipSwitch × Option Int :=
  if srcChip < 0 ∨ ics.numChips ≤ srcChip then (ics, none)
  else if dstChip < 0 ∨ ics.numChips ≤ dstChip then (ics, none)
  else if channelID < 0 ∨ ics.dqPartition.numChannels ≤ channelID then
    (ics, none)
  else
    let res := ics.crossbar.Connect srcChip dstChip
    if res.2 then
      ({ ics with
          crossbar := res.1
          activeTransfers :=
            (ics.nextTransferID,
              { TransferID := ics.nextTransferID
                SrcChipID := srcChip
                DstChipID := dstChip
                ChannelID := channelID
                Data := data
                StartCycle := ics.cycles
                EndCycle := -1 }) :: ics.activeTransfers
          nextTransferID := ics.nextTransferID + 1
          totalTransfers := ics.totalTransfers + 1
          totalBytes := ics.totalBytes + data.length },
        some ics.nextTransferID)
    else ({ ics with crossbar := res.1 }, none)

/-- InterChipSwitch.CompleteTransfer (inter_chip_switch.go): look the
transfer up (the removed record's EndCycle assignment is not
observable), disconnect the crossbar and delete the entry. -/
def InterChipSwitch.CompleteTransfer (ics : InterChipSwitch)
    (transferID : Int) : InterChipSwitch × Bool :=
  match ics.activeTransfers.find? (fun kt => decide (kt.1 = transferID)) with
  | none => (ics, false)
  | some kt =>
      ({ ics with
          crossbar := ics.crossbar.Disconnect kt.2.SrcChipID
          activeTransfers :=
            ics.activeTransfers.filter fun e => decide (e.1 ≠ transferID) },
        true)

/-- InterChipSwitch.Cycle (inter_chip_switch.go). -/
def InterChipSwitch.Cycle (ics : InterChipSwitch) : InterChipSwitch :=
  { ics with crossbar := ics.crossbar.Cycle, cycles := ics.cycles + 1 }

/-- A trace operation on the inter-chip switch. -/
inductive IcsOp where
  | start (srcChip dstChip channelID : Int) (data : List Nat)
  | complete (transferID : Int)
  | cycle

/-- Apply one operation. -/
def InterChipSwitch.applyOp (ics : InterChipSwitch) : IcsOp → InterChipSwitch
  | IcsOp.start s d c data => (ics.StartTransfer s d c data).1
  | IcsOp.complete id => (ics.CompleteTransfer id).1
  | IcsOp.cycle => ics.Cycle

/-- Run a list of operations from a state. -/
def InterChipSwitch.runOps (ics : InterChipSwitch) (ops : List IcsOp) :
    InterChipSwitch :=
  ops.foldl InterChipSwitch.applyOp ics

/-- Key invariant of the transfer table: every active id is below
nextTransferID, so the next id is fresh. -/
def IcsIds (ics : InterChipSwitch) : Prop :=
  ∀ kt ∈ ics.activeTransfers, kt.1 < ics.nextTransferID

theorem startTransfer_ids (ics : InterChipSwitch) (s d c : Int)
    (data : List Nat) (h : IcsIds ics) :
    IcsIds (ics.StartTransfer s d c data).1 := by
  unfold InterChipSwitch.StartTransfer
  by_cases h1 : s < 0 ∨ ics.numChips ≤ s
  · rw [if_pos h1]; exact h
  · rw [if_neg h1]
    by_cases h2 : d < 0 ∨ ics.numChips ≤ d
    · rw [if_pos h2]; exact h
    · rw [if_neg h2]
      by_cases h3 : c < 0 ∨ ics.dqPartition.numChannels ≤ c
      · rw [if_pos h3]; exact h
      · rw [if_neg h3]
        by_cases h4 : (ics.crossbar.Connect s d).2 = true
        · simp only [h4, if_true]
          intro kt hkt
          simp only [List.mem_cons] at hkt
          rcases hkt with hkt | hkt
          · subst hkt; simp
          · have := h kt hkt
            simp only
            omega
        · simp only [h4, Bool.false_eq_true, if_false]
          exact h

theorem completeTransfer_ids (ics : InterChipSwitch) (id : Int)
    (h : IcsIds ics) : IcsIds (ics.CompleteTransfer id).1 := by
  unfold InterChipSwitch.CompleteTransfer
  split
  · exact h
  · intro kt hkt
    simp only [List.mem_filter] at hkt
    exact h kt hkt.1

theorem runOps_ids (ops : List IcsOp) :
    ∀ ics : InterChipSwitch, IcsIds ics → IcsIds (ics.runOps ops) := by
  induction ops with
  | nil => intro ics h; exact h
  | cons op rest ih =>
      intro ics h
      have hstep : IcsIds (ics.applyOp op) := by
        cases op with
        | start s d c data => exact startTransfer_ids ics s d c data h
        | complete id => exact completeTransfer_ids ics id h
        | cycle => exact h
      exact ih (ics.applyOp op) hstep

theorem icsInit_ids (numChips totalDQPins numChannels : Int)
    (ics0 : InterChipSwitch)
    (hinit : InterChipSwitch.Init numChips totalDQPins numChannels =
      some ics0) : IcsIds ics0 := by
  unfold InterChipSwitch.Init at hinit
  split at hinit
  · cases hinit
  · injection hinit with hE
    subst hE
    intro kt hkt
    cases hkt

/-- C9: for every switch state reachable from a successful Init by any
sequence of operations, whenever StartTransfer returns an error
(out-of-range source chip, destination chip or channel, or a blocked
crossbar connection), the active-transfer table, nextTransferID,
totalTransfers and totalBytes are all unchanged; and only when the
crossbar Connect succeeds is a record created, keyed by a fresh id (not
in the table) equal to nextTransferID, with startCycle equal to the
current cycle, alongside the counter updates. -/
theorem startTransfer_error_no_mutation (numChips totalDQPins numChannels : Int)
    (ics0 : InterChipSwitch)
    (hinit : InterChipSwitch.Init numChips totalDQPins numChannels = some ics0)
    (ops : List IcsOp) (srcChip dstChip channelID : Int) (data : List Nat) :
    (((ics0.runOps ops).StartTransfer srcChip dstChip channelID data).2 =
        none →
      ((ics0.runOps ops).StartTransfer srcChip dstChip channelID
          data).1.activeTransfers = (ics0.runOps ops).activeTransfers ∧
      ((ics0.runOps ops).StartTransfer srcChip dstChip channelID
          data).1.nextTransferID = (ics0.runOps ops).nextTransferID ∧
      ((ics0.runOps ops).StartTransfer srcChip dstChip channelID
          data).1.totalTransfers = (ics0.runOps ops).totalTransfers ∧
      ((ics0.runOps ops).StartTransfer srcChip dstChip channelID
          data).1.totalBytes = (ics0.runOps ops).totalBytes) ∧
    (∀ id, ((ics0.runOps ops).StartTransfer srcChip dstChip channelID
        data).2 = some id →
      id = (ics0.runOps ops).nextTransferID ∧
      id ∉ ((ics0.runOps ops).activeTransfers.map Prod.fst) ∧
      ((ics0.runOps ops).StartTransfer srcChip dstChip channelID
          data).1.activeTransfers =
        (id,
          { TransferID := id
            SrcChipID := srcChip
            DstChipID := dstChip
            ChannelID := channelID
            Data := data
            StartCycle := (ics0.runOps ops).cycles
            EndCycle := -1 }) :: (ics0.runOps ops).activeTransfers ∧
      ((ics0.runOps ops).StartTransfer srcChip dstChip channelID
          data).1.nextTransferID = (ics0.runOps ops).nextTransferID + 1 ∧
      ((ics0.runOps ops).StartTransfer srcChip dstChip channelID
          data).1.totalTransfers = (ics0.runOps ops).totalTransfers + 1 ∧
      ((ics0.runOps ops).StartTransfer srcChip dstChip channelID
          data).1.totalBytes = (ics0.runOps ops).totalBytes + data.length) := by
  have hids : IcsIds (ics0.runOps ops) :=
    runOps_ids ops ics0 (icsInit_ids numChips totalDQPins numChannels ics0 hinit)
  set ics := ics0.runOps ops with hics
  unfold InterChipSwitch.StartTransfer
  by_cases h1 : srcChip < 0 ∨ ics.numChips ≤ srcChip
  · rw [if_pos h1]
    exact ⟨fun _ => ⟨rfl, rfl, rfl, rfl⟩, fun id hid => by cases hid⟩
  · rw [if_neg h1]
    by_cases h2 : dstChip < 0 ∨ ics.numChips ≤ dstChip
    · rw [if_pos h2]
      exact ⟨fun _ => ⟨rfl, rfl, rfl, rfl⟩, fun id hid => by cases hid⟩
    · rw [if_neg h2]
      by_cases h3 : channelID < 0 ∨ ics.dqPartition.numChannels ≤ channelID
      · rw [if_pos h3]
        exact ⟨fun _ => ⟨rfl, rfl, rfl, rfl⟩, fun id hid => by cases hid⟩
      · rw [if_neg h3]
        by_cases h4 : (ics.crossbar.Connect srcChip dstChip).2 = true
        · dsimp only
          rw [if_pos h4]
          constructor
          · intro hnone
            cases hnone
          · intro id hid
            injection hid with hid
            subst hid
            refine ⟨rfl, ?_, rfl, rfl, rfl, rfl⟩
            intro hmem
            simp only [List.mem_map] at hmem
            obtain ⟨kt, hkt, hfst⟩ := hmem
            have := hids kt hkt
            omega
        · dsimp only
          rw [if_neg h4]
          exact ⟨fun _ => ⟨rfl, rfl, rfl, rfl⟩, fun id hid => by cases hid⟩

/-- The inter-chip switch produced by Init(4 chips, 64 DQ pins,
8 channels); 64 is divisible by 8 so Init succeeds. -/
def witnessICS0 : InterChipSwitch :=
  (InterChipSwitch.Init 4 64 8).get (by rfl)

/-- Witness for C9: the theorem applies to the freshly initialised
switch with the out-of-range source chip −1, and the error indeed
leaves the four state components unchanged. -/
theorem startTransfer_error_no_mutation_witness :
    ((witnessICS0.runOps []).StartTransfer (-1) 0 0 [1, 2]).2 = none ∧
      (((witnessICS0.runOps []).StartTransfer (-1) 0 0
          [1, 2]).1.activeTransfers = (witnessICS0.runOps []).activeTransfers ∧
        ((witnessICS0.runOps []).StartTransfer (-1) 0 0
          [1, 2]).1.nextTransferID = (witnessICS0.runOps []).nextTransferID ∧
        ((witnessICS0.runOps []).StartTransfer (-1) 0 0
          [1, 2]).1.totalTransfers = (witnessICS0.runOps []).totalTransfers ∧
        ((witnessICS0.runOps []).StartTransfer (-1) 0 0
          [1, 2]).1.totalBytes = (witnessICS0.runOps []).totalBytes) :=
  ⟨rfl,
    (startTransfer_error_no_mutation 4 64 8 witnessICS0
      (Option.some_get (by rfl)).symm [] (-1) 0 0 [1, 2]).1 rfl⟩

/-- BroadcastTopology (broadcast.go): the tree parameters and the
node→mesh position mapping.  The mesh back-reference plays no part in
the tree structure. -/
structure BroadcastTopology where
  numNodes : Int
  branchingFactor : Int
  nodePositions : List (Int × Int)

/-- BroadcastTopology.Init (broadcast.go): binary tree (branching
factor 2); node i sits at mesh position (i/8, i%8). -/
def BroadcastTopology.Init (numNodes : Int) : BroadcastTopology where
  numNodes := numNodes
  branchingFactor := 2
  nodePositions :=
    (List.range numNodes.toNat).map fun i =>
      (((i / 8 : Nat) : Int), ((i % 8 : Nat) : Int))

/-- BroadcastTopology.GetParent (broadcast.go); Go integer division is
truncated (Int.tdiv). -/
def BroadcastTopology.GetParent (bt : BroadcastTopology) (nodeID : Int) : Int :=
  if nodeID = 0 then -1 else (nodeID - 1).tdiv bt.branchingFactor

/-- BroadcastTopology.GetChildren (broadcast.go): the loop over
0 ≤ j < branchingFactor appending the in-range child ids. -/
def BroadcastTopology.GetChildren (bt : BroadcastTopology) (nodeID : Int) :
    List Int :=
  (List.range bt.branchingFactor.toNat).filterMap fun (j : Nat) =>
    let childID := nodeID * bt.branchingFactor + 1 + (j : Int)
    if childID < bt.numNodes then some childID else none

theorem children_closed (N i : Int) :
    (BroadcastTopology.Init N).GetChildren i =
      (if 2 * i + 1 < N then [2 * i + 1] else []) ++
        (if 2 * i + 2 < N then [2 * i + 2] else []) := by
  have hbf : (BroadcastTopology.Init N).branchingFactor = 2 := rfl
  have hnn : (BroadcastTopology.Init N).numNodes = N := rfl
  unfold BroadcastTopology.GetChildren
  rw [hbf, hnn]
  have hr : List.range (Int.toNat 2) = [0, 1] := rfl
  rw [hr]
  simp only [List.filterMap_cons, List.filterMap_nil]
  have e1 : i * 2 + 1 + ((0 : Nat) : Int) = 2 * i + 1 := by push_cast; ring
  have e2 : i * 2 + 1 + ((1 : Nat) : Int) = 2 * i + 2 := by push_cast; ring
  rw [e1, e2]
  split_ifs <;> simp

/-- C7: in the binary broadcast tree (branching factor 2) on N nodes,
GetChildren(i) is exactly the set { 2i+1+j | 0 ≤ j < 2, 2i+1+j < N } in
increasing order, GetParent(0) = −1 and GetParent(i) = (i−1)/2 for
i > 0, and for every node i ≥ 0 each child's parent is i. -/
theorem broadcast_tree_parent_children (N i c : Int) :
    (c ∈ (BroadcastTopology.Init N).GetChildren i ↔
      ((c = 2 * i + 1 ∨ c = 2 * i + 2) ∧ c < N)) ∧
    List.Chain' (· < ·) ((BroadcastTopology.Init N).GetChildren i) ∧
    (BroadcastTopology.Init N).GetParent 0 = -1 ∧
    (0 < i → (BroadcastTopology.Init N).GetParent i = (i - 1).tdiv 2) ∧
    (0 ≤ i → c ∈ (BroadcastTopology.Init N).GetChildren i →
      (BroadcastTopology.Init N).GetParent c = i) := by
  have hbf : (BroadcastTopology.Init N).branchingFactor = 2 := rfl
  refine ⟨?_, ?_, ?_, ?_, ?_⟩
  · rw [children_closed]
    simp only [List.mem_append]
    constructor
    · intro hc
      rcases hc with hc | hc <;> split_ifs at hc <;> simp at hc <;> omega
    · rintro ⟨hcv, hcN⟩
      rcases hcv with hcv | hcv
      · left
        rw [if_pos (by omega)]
        simp [hcv]
      · right
        rw [if_pos (by omega)]
        simp [hcv]
  · rw [children_closed]
    split_ifs <;> simp
  · rfl
  · intro hi
    unfold BroadcastTopology.GetParent
    rw [hbf, if_neg (by omega)]
  · intro hi hc
    rw [children_closed] at hc
    simp only [List.mem_append] at hc
    have hcv : c = 2 * i + 1 ∨ c = 2 * i + 2 := by
      rcases hc with hc | hc <;> split_ifs at hc <;> simp at hc <;> omega
    unfold BroadcastTopology.GetParent
    rw [hbf, if_neg (by omega)]
    rcases hcv with hcv | hcv
    · subst hcv
      have h2 : 2 * i + 1 - 1 = 2 * i := by ring
      rw [h2, Int.tdiv_eq_ediv (by omega) (by omega)]
      omega
    · subst hcv
      have h2 : 2 * i + 2 - 1 = 2 * i + 1 := by ring
      rw [h2, Int.tdiv_eq_ediv (by omega) (by omega)]
      omega

/-- Witness for C7: the theorem applied to the 8-node tree at node 1
and its first child 3 (the test table of TestBroadcastTreeStructure),
with the hypotheses discharged concretely. -/
theorem broadcast_tree_parent_children_witness :
    (0 : Int) ≤ 1 ∧
      (3 : Int) ∈ (BroadcastTopology.Init 8).GetChildren 1 ∧
      (BroadcastTopology.Init 8).GetParent 3 = 1 :=
  ⟨by decide, by decide,
    (broadcast_tree_parent_children 8 1 3).2.2.2.2 (by decide) (by decide)⟩

/-- Modelled from the spec: the reduce operators SUM (+), MAX, MIN,
PROD (×) of the collective package (§4.3); the package's ring/reduce
source is absent from src (only collective_test.go is present). -/
inductive ReduceOp where
  | SUM
  | MAX
  | MIN
  | PROD
deriving DecidableEq, Repr

/-- Modelled from the spec: ApplyReduce applies a reduce operator to two
signed 64-bit integers (modelled on unbounded Int; two's-complement
wrap-around commutes with + and ×, and MAX/MIN cannot overflow). -/
def ApplyReduce : ReduceOp → Int → Int → Int
  | ReduceOp.SUM, a, b => a + b
  | ReduceOp.MAX, a, b => max a b
  | ReduceOp.MIN, a, b => min a b
  | ReduceOp.PROD, a, b => a * b

namespace collective

/-- Modelled from the spec: the RingTopology record as far as the
all-reduce contract needs it (numNodes N; ring successor
next(i) = (i+1) mod N).  Namespaced by the Go package name to avoid a
clash with the ambient mathematical library. -/
structure RingTopology where
  numNodes : Int

end collective

/-- Modelled from the spec (§4.3): RingAllReduceSimple in its documented
"compressed simple form — a centralized fold producing a single
scalar"; `none` stands for the error on an empty input (N ≥ 1
required). -/
def collective.RingTopology.RingAllReduceSimple (_rt : collective.RingTopology)
    (values : List Int) (op : ReduceOp) : Option Int :=
  match values with
  | [] => none
  | v :: rest => some (rest.foldl (ApplyReduce op) v)

/-- Modelled from the spec (§4.3 algorithm outline): the round-based
ring pass — the token starts at node 0 with its value; in round k the
token moves to next(k) = (k+1) mod N and is folded with that node's
value; after N−1 rounds it holds the reduction. -/
def ringRounds (values : List Int) (op : ReduceOp) : Option Int :=
  match values with
  | [] => none
  | v :: rest =>
      some ((List.range rest.length).foldl
        (fun token k =>
          ApplyReduce op token ((v :: rest).getD ((k + 1) % (v :: rest).length) 0))
        v)

theorem foldl_range_getD (g : Int → Int → Int) (l : List Int) :
    ∀ v : Int,
      (List.range l.length).foldl (fun t k => g t (l.getD k 0)) v =
        l.foldl g v := by
  induction l with
  | nil => intro v; rfl
  | cons x xs ih =>
      intro v
      have hlen : (x :: xs).length = xs.length + 1 := rfl
      rw [hlen, List.range_succ_eq_map]
      simp only [List.foldl_cons, List.foldl_map]
      have hx : (x :: xs).getD 0 0 = x := rfl
      rw [hx]
      have hee : ∀ (t : Int), ∀ k ∈ List.range xs.length,
          g t ((x :: xs).getD (Nat.succ k) 0) = g t (xs.getD k 0) := by
        intro t k _
        rfl
      rw [List.foldl_ext _ _ (g v x) hee]
      exact ih (g v x)

/-- C4: RingAllReduceSimple returns the scalar
op(values[0], values[1], …, values[N−1]) for every N ≥ 1 (non-empty
value vector) and every operator; the round-based ring pass of the spec
computes the same scalar; and on the 8-node test vector SUM gives 280,
MAX gives 70 and MIN gives 0. -/
theorem ringAllReduceSimple_computes_reduction (rt : collective.RingTopology) (v : Int)
    (rest : List Int) (op : ReduceOp) :
    rt.RingAllReduceSimple (v :: rest) op =
      some (rest.foldl (ApplyReduce op) v) ∧
    ringRounds (v :: rest) op = rt.RingAllReduceSimple (v :: rest) op ∧
    (collective.RingTopology.mk 8).RingAllReduceSimple
      [0, 10, 20, 30, 40, 50, 60, 70] ReduceOp.SUM = some 280 ∧
    (collective.RingTopology.mk 8).RingAllReduceSimple
      [0, 10, 20, 30, 40, 50, 60, 70] ReduceOp.MAX = some 70 ∧
    (collective.RingTopology.mk 8).RingAllReduceSimple
      [0, 10, 20, 30, 40, 50, 60, 70] ReduceOp.MIN = some 0 := by
  refine ⟨rfl, ?_, by decide, by decide, by decide⟩
  have h1 : ringRounds (v :: rest) op =
      some ((List.range rest.length).foldl
        (fun token k =>
          ApplyReduce op token ((v :: rest).getD ((k + 1) % (v :: rest).length) 0))
        v) := rfl
  have h2 : rt.RingAllReduceSimple (v :: rest) op =
      some (rest.foldl (ApplyReduce op) v) := rfl
  rw [h1, h2]
  congr 1
  have hee : ∀ (t : Int), ∀ k ∈ List.range rest.length,
      ApplyReduce op t ((v :: rest).getD ((k + 1) % (v :: rest).length) 0) =
        ApplyReduce op t (rest.getD k 0) := by
    intro t k hk
    simp only [List.mem_range] at hk
    have hlt : k + 1 < (v :: rest).length := by
      simp only [List.length_cons]
      omega
    rw [Nat.mod_eq_of_lt hlt]
    rfl
  rw [List.foldl_ext _ _ v hee]
  exact foldl_range_getD (ApplyReduce op) rest v
